import Mathlib

/-!
Verification of chalice/deploy/deployer.py (compute + gateway + identity
deployment reconciler).

The Python module is embedded shallowly:

* External collaborators (OS file system, the interactive prompter, the
  policy generator, artifact packager, ARN and uuid generation, the remote
  existence oracles) are fields of a read-only `Env`.
* The mutable remote/local state (lambda functions, IAM roles, the policy
  files written by record_policy, the uuid draw counter) is a `World` that
  is threaded explicitly.
* Every remote or locally observable action appends an `Event` to a trace.
* Python exceptions become `Except DeployErr`; a try/except block becomes a
  match on the error constructor.  Side effects performed before an
  exception is raised are kept, exactly as in Python: each function returns
  its result together with the world and trace as they stand at the point
  of the raise.

Function names follow the source, with the leading underscore of private
methods dropped.
-/

namespace Chalice

/-- One statement of a permission document: a set of allowed actions over a
set of resources (spec section 3, PermissionDocument). -/
structure PolicyStatement where
  actions : List String
  resources : List String
deriving DecidableEq

/-- A permission document: version string plus ordered statement list. -/
structure PolicyDoc where
  version : String
  statements : List PolicyStatement
deriving DecidableEq

/-- ApplicationPolicyHandler._EMPTY_POLICY from the source. -/
def EMPTY_POLICY : PolicyDoc := { version := "2012-10-17", statements := [] }

/-- Result of the policy diff engine. -/
structure PolicyDiffResult where
  added : List String
  removed : List String
deriving DecidableEq

/-- All actions granted across all statements of a document. -/
def flattenActions (d : PolicyDoc) : List String :=
  (d.statements.map (fun s => s.actions)).flatten

/-- Modelled from the spec: chalice.policy.diff_policies is not under src/.
Spec 4.1: flatten each document to the set of granted actions across all
statements, added = next minus previous, removed = previous minus next. -/
def diff_policies (previous next : PolicyDoc) : PolicyDiffResult :=
  let prevA := flattenActions previous
  let nextA := flattenActions next
  { added := (nextA.filter (fun a => !(prevA.contains a))).dedup,
    removed := (prevA.filter (fun a => !(nextA.contains a))).dedup }

/-- Modelled from the spec: the diff result is falsy exactly when both
action sets are empty (spec 4.1). -/
def PolicyDiffResult.isEmpty (d : PolicyDiffResult) : Bool :=
  d.added.isEmpty && d.removed.isEmpty

/-- Modelled from the spec: chalice.constants.DEFAULT_STAGE_NAME, the fixed
default stage name, is not under src/. -/
def DEFAULT_STAGE_NAME : String := "dev"

/-- Modelled from the spec: chalice.constants.DEFAULT_LAMBDA_TIMEOUT (a
fixed platform default) is not under src/. -/
def DEFAULT_LAMBDA_TIMEOUT : Nat := 60

/-- Modelled from the spec: chalice.constants.DEFAULT_LAMBDA_MEMORY_SIZE (a
fixed platform default) is not under src/. -/
def DEFAULT_LAMBDA_MEMORY_SIZE : Nat := 128

/-- chalice.app.RouteEntry, restricted to the fields deployer.py reads.
The cors attribute is truthy when present; two cors configurations are
compared for equality, which Option equality models. -/
structure RouteEntry where
  view_name : String
  content_types : List String
  cors : Option String
deriving DecidableEq

/-- chalice.app.BuiltinAuthConfig, restricted to the fields read here. -/
structure BuiltinAuthConfig where
  name : String
  handler_string : String
deriving DecidableEq

/-- The chalice application definition as deployer.py consumes it: ordered
route table and declared authorizers.  api_binary_types stands for
app.api.binary_types. -/
structure ChaliceApp where
  routes : List (String × List (String × RouteEntry))
  builtin_auth_handlers : List BuiltinAuthConfig
  api_binary_types : List String

/-- chalice.config.DeployedResources: the per-stage record of the previous
deploy.  lambda_functions maps authorizer function name to function ARN. -/
structure DeployedResources where
  api_handler_name : String
  api_handler_arn : String
  lambda_functions : List (String × String)
  rest_api_id : String
deriving DecidableEq

/-- chalice.config.Config, restricted to the attributes deployer.py reads.
iam_role_arn is the empty string when not provided (Python falsy check).
deployed_resources is the per-stage record lookup the Config object
performs. -/
structure Config where
  app_name : String
  project_dir : String
  chalice_stage : String
  manage_iam_role : Bool
  iam_role_arn : String
  autogen_policy : Bool
  iam_policy_file : Option String
  lambda_python_version : String
  environment_variables : List (String × String)
  tags : List (String × String)
  lambda_timeout : Option Nat
  lambda_memory_size : Option Nat
  api_gateway_stage : Option String
  chalice_app : ChaliceApp
  deployed_resources : String → Option DeployedResources

/-- Errors: Python exceptions that deployer.py raises, catches or lets
propagate.  validation is ValueError from the validators;  awsClient covers
the _AWSCLIENT_EXCEPTIONS pair (botocore ClientError, LambdaClientError);
deployment is ChaliceDeploymentError; malformedPolicyFile is the failure of
json.loads on an existing policy file; rdne is ResourceDoesNotExistError;
aborted is the prompter abort on a declined confirmation. -/
inductive DeployErr where
  | validation (msg : String)
  | awsClient (msg : String)
  | deployment (msg : String)
  | malformedPolicyFile (filename : String)
  | rdne (resource : String)
  | aborted
deriving DecidableEq

/-- Observable actions, in program order.  confirmPrompt records the
default answer and the abort-on-decline flag passed to the prompter;
recordPolicyFile is the local write of the last-applied policy file. -/
inductive Event where
  | probeFunction (name : String) (found : Bool)
  | createFunction (name : String)
  | updateFunction (name : String)
  | deleteFunction (nameOrArn : String)
  | getFunctionConfig (name : String)
  | probeRole (name : String)
  | createRole (name : String)
  | deleteRole (name : String)
  | deleteRolePolicy (roleName : String) (policyName : String)
  | putRolePolicy (roleName : String) (policyName : String)
  | probeRestApi (restApiId : String) (found : Bool)
  | importRestApi (restApiId : String)
  | updateRestApi (restApiId : String)
  | deployRestApi (restApiId : String) (stageName : String)
  | deleteRestApi (restApiId : String)
  | addPermission (functionName : String) (accountId : String)
      (restApiId : String) (statementId : String)
  | addAuthPermission (restApiId : String) (functionArn : String)
      (statementId : String)
  | confirmPrompt (dflt : Bool) (abortOnDecline : Bool)
  | recordPolicyFile (filename : String)
deriving DecidableEq

/-- Remote lambda function state: its ARN and configured runtime. -/
structure FuncInfo where
  arn : String
  runtime : String
deriving DecidableEq

/-- The mutable state threaded through a run: remote lambda functions by
name, remote IAM roles by name, policy files written during this run
(overlaying the on-disk base file system of Env), and the number of uuids
drawn so far. -/
structure World where
  functions : List (String × FuncInfo)
  roles : List (String × String)
  policyFiles : List (String × PolicyDoc)
  uuidCount : Nat
deriving DecidableEq

/-- Read-only collaborators: base file system, prompter answers, policy
generator, packager paths, remote oracles, ARN and uuid generation, config
scoping, and fault injection for the two lambda code-upload calls (the
calls that raise LambdaClientError in awsclient). -/
structure Env where
  fsExists : String → Bool
  fsDoc : String → Option PolicyDoc
  answer : String → Bool → Bool → Bool
  funcArnOf : String → String
  roleArnOf : String → String
  regionName : String
  genPolicy : Config → PolicyDoc
  deploymentPackageFilename : String → String
  restApiExists : String → Bool
  importedRestApiId : String
  uuids : Nat → String
  createFault : String → Option String
  updateFault : String → Option String
  scopeConfig : Config → String → Config

/-- Result triple of an embedded stateful call: outcome, world after the
call, trace of the call.  On error the world and trace up to the raise are
kept. -/
abbrev MRes (α : Type) := Except DeployErr α × World × List Event

/-- Association-list insert with Python dict assignment semantics: replace
in place when the key is present, append otherwise. -/
def insertAssoc {α : Type} : List (String × α) → String → α → List (String × α)
  | [], k, v => [(k, v)]
  | (k2, v2) :: rest, k, v =>
      if k2 = k then (k, v) :: rest else (k2, v2) :: insertAssoc rest k v

/-- Python str.split with a one-character separator, as a structurally
recursive function on the character list. -/
def splitOnCharList (c : Char) : List Char → List (List Char)
  | [] => [[]]
  | x :: xs =>
      let r := splitOnCharList c xs
      if x = c then [] :: r
      else
        match r with
        | [] => [[x]]
        | g :: gs => (x :: g) :: gs

/-- Python s.split(c) for a one-character separator c. -/
def splitString (c : Char) (s : String) : List String :=
  (splitOnCharList c s.data).map (fun l => ⟨l⟩)

/-- Python s.endswith(c) for a one-character suffix c. -/
def endsWithChar (c : Char) (s : String) : Bool :=
  s.data.getLast? == some c

/-! ## TypedAWSClient primitives (external collaborator, modelled at the
boundary of spec section 6: existence probes read the world, mutations
update it, every call leaves a trace event). -/

/-- TypedAWSClient.lambda_function_exists: existence probe by name. -/
def lambda_function_exists (w : World) (name : String) : Bool × List Event :=
  let b := (w.functions.lookup name).isSome
  (b, [.probeFunction name b])

/-- TypedAWSClient.create_function.  Returns the new function ARN.  The
injected fault stands for a LambdaClientError raised while uploading. -/
def create_function (env : Env) (w : World) (function_name : String)
    (runtime : String) : MRes String :=
  match env.createFault function_name with
  | some msg => (.error (.awsClient msg), w, [.createFunction function_name])
  | none =>
      let arn := env.funcArnOf function_name
      (.ok arn,
       { w with functions := insertAssoc w.functions function_name ⟨arn, runtime⟩ },
       [.createFunction function_name])

/-- TypedAWSClient.update_function.  Returns the FunctionArn field of the
response.  The injected fault stands for a LambdaClientError raised while
uploading. -/
def update_function (env : Env) (w : World) (function_name : String)
    (runtime : String) : MRes String :=
  match env.updateFault function_name with
  | some msg => (.error (.awsClient msg), w, [.updateFunction function_name])
  | none =>
      match w.functions.lookup function_name with
      | none =>
          (.error (.awsClient ("no function named " ++ function_name)), w,
           [.updateFunction function_name])
      | some info =>
          (.ok info.arn,
           { w with functions :=
               insertAssoc w.functions function_name ⟨info.arn, runtime⟩ },
           [.updateFunction function_name])

/-- TypedAWSClient.delete_function: raises ResourceDoesNotExistError when
no function with that name or ARN exists. -/
def delete_function (w : World) (nameOrArn : String) : MRes Unit :=
  if w.functions.any (fun p => p.1 == nameOrArn || p.2.arn == nameOrArn) then
    (.ok (),
     { w with functions :=
         w.functions.filter (fun p => !(p.1 == nameOrArn || p.2.arn == nameOrArn)) },
     [.deleteFunction nameOrArn])
  else
    (.error (.rdne nameOrArn), w, [.deleteFunction nameOrArn])

/-- TypedAWSClient.get_role_arn_for_name: raises ResourceDoesNotExistError
when the role is absent. -/
def get_role_arn_for_name (w : World) (name : String) : MRes String :=
  match w.roles.lookup name with
  | some arn => (.ok arn, w, [.probeRole name])
  | none => (.error (.rdne name), w, [.probeRole name])

/-- TypedAWSClient.create_role: creates the role with the trust policy and
the given policy document attached, returning the role ARN. -/
def create_role (env : Env) (w : World) (name : String) : World × String × List Event :=
  let arn := env.roleArnOf name
  ({ w with roles := insertAssoc w.roles name arn }, arn, [.createRole name])

/-- TypedAWSClient.delete_role. -/
def delete_role (w : World) (name : String) : World × List Event :=
  ({ w with roles := w.roles.filter (fun p => !(p.1 == name)) }, [.deleteRole name])

/-- TypedAWSClient.delete_role_policy (assumed reliable, spec section 1). -/
def delete_role_policy (w : World) (role_name policy_name : String) :
    World × List Event :=
  (w, [.deleteRolePolicy role_name policy_name])

/-- TypedAWSClient.put_role_policy (assumed reliable, spec section 1). -/
def put_role_policy (w : World) (role_name policy_name : String)
    (_policy_document : PolicyDoc) : World × List Event :=
  (w, [.putRolePolicy role_name policy_name])

/-- A policy file exists when this run has written it or it is on disk. -/
def fileExistsW (env : Env) (w : World) (f : String) : Bool :=
  (w.policyFiles.lookup f).isSome || env.fsExists f

/-- The parse of a policy file: a file written during this run parses to
what was written; otherwise json.loads of the on-disk contents, none when
the contents are not valid. -/
def readPolicyDoc (env : Env) (w : World) (f : String) : Option PolicyDoc :=
  match w.policyFiles.lookup f with
  | some d => some d
  | none => env.fsDoc f

namespace ApplicationPolicyHandler

/-- ApplicationPolicyHandler._app_policy_file: explicit override filename
when configured; otherwise policy-(stage).json; otherwise, when that file
is absent and the stage is the default stage, the back-compatible
policy.json. -/
def app_policy_file (env : Env) (w : World) (config : Config) : String :=
  match config.iam_policy_file with
  | some f => config.project_dir ++ "/.chalice/" ++ f
  | none =>
      let basename := "policy-" ++ config.chalice_stage ++ ".json"
      let filename := config.project_dir ++ "/.chalice/" ++ basename
      if !(fileExistsW env w filename) && config.chalice_stage == DEFAULT_STAGE_NAME
      then config.project_dir ++ "/.chalice/policy.json"
      else filename

/-- ApplicationPolicyHandler.load_last_policy: the empty policy when the
resolved file does not exist; the parse of its contents otherwise, raising
on contents that do not parse. -/
def load_last_policy (env : Env) (w : World) (config : Config) :
    Except DeployErr PolicyDoc :=
  let filename := app_policy_file env w config
  if !(fileExistsW env w filename) then .ok EMPTY_POLICY
  else
    match readPolicyDoc env w filename with
    | none => .error (.malformedPolicyFile filename)
    | some d => .ok d

/-- ApplicationPolicyHandler.record_policy: write the document to the
resolved policy file. -/
def record_policy (env : Env) (w : World) (config : Config)
    (policy_document : PolicyDoc) : World × List Event :=
  let f := app_policy_file env w config
  ({ w with policyFiles := insertAssoc w.policyFiles f policy_document },
   [.recordPolicyFile f])

/-- ApplicationPolicyHandler.generate_policy_from_app_source: generate from
source when autogen_policy is set, else load the last policy file. -/
def generate_policy_from_app_source (env : Env) (w : World) (config : Config) :
    Except DeployErr PolicyDoc :=
  if config.autogen_policy then .ok (env.genPolicy config)
  else load_last_policy env w config

end ApplicationPolicyHandler

/-! ## Validation (module-level validators). -/

/-- _validate_cors_for_route. -/
def validate_cors_for_route (route_url : String)
    (route_methods : List (String × RouteEntry)) : Except DeployErr Unit :=
  match (route_methods.map (fun p => p.2)).filter (fun e => e.cors.isSome) with
  | [] => .ok ()
  | e0 :: rest =>
      if route_methods.any (fun p => p.1 == "OPTIONS") then
        .error (.validation
          ("Route entry cannot have both cors=True and methods=OPTIONS configured: "
            ++ route_url))
      else if !((e0 :: rest).all (fun e => e.cors == e0.cors)) then
        .error (.validation
          ("Route may not have multiple differing CORS configurations: " ++ route_url))
      else .ok ()

/-- validate_routes: reject trailing-slash paths, then validate CORS per
route. -/
def validate_routes : List (String × List (String × RouteEntry)) → Except DeployErr Unit
  | [] => .ok ()
  | (route_name, methods) :: rest =>
      if route_name != "/" && endsWithChar '/' route_name then
        .error (.validation ("Route cannot end with a trailing slash: " ++ route_name))
      else
        match validate_cors_for_route route_name methods with
        | .error e => .error e
        | .ok _ => validate_routes rest

/-- _validate_entry_content_type: the content types of one route entry must
be homogeneous in binary support. -/
def validate_entry_content_type (route_entry : RouteEntry)
    (binary_types : List String) : Except DeployErr Unit :=
  let binary := route_entry.content_types.filter (fun c => binary_types.contains c)
  let non_binary :=
    route_entry.content_types.filter (fun c => !(binary_types.contains c))
  if !binary.isEmpty && !non_binary.isEmpty then
    .error (.validation
      ("All content_types must be consistent in their binary support: "
        ++ route_entry.view_name))
  else .ok ()

/-- The inner loop of validate_route_content_types over one route. -/
def validateEntriesContentTypes :
    List (String × RouteEntry) → List String → Except DeployErr Unit
  | [], _ => .ok ()
  | (_, e) :: rest, bt =>
      match validate_entry_content_type e bt with
      | .error er => .error er
      | .ok _ => validateEntriesContentTypes rest bt

/-- validate_route_content_types. -/
def validate_route_content_types :
    List (String × List (String × RouteEntry)) → List String → Except DeployErr Unit
  | [], _ => .ok ()
  | (_, methods) :: rest, bt =>
      match validateEntriesContentTypes methods bt with
      | .error er => .error er
      | .ok _ => validate_route_content_types rest bt

/-- _validate_manage_iam_role: an unmanaged role requires a provided ARN. -/
def validate_manage_iam_role (config : Config) : Except DeployErr Unit :=
  if !config.manage_iam_role then
    if config.iam_role_arn == "" then
      .error (.validation
        "When manage_iam_role is set to false, you must provide an iam_role_arn")
    else .ok ()
  else .ok ()

/-- validate_configuration.  validate_python_version only emits a warning
and is omitted. -/
def validate_configuration (config : Config) : Except DeployErr Unit :=
  match validate_routes config.chalice_app.routes with
  | .error e => .error e
  | .ok _ =>
      match validate_route_content_types config.chalice_app.routes
          config.chalice_app.api_binary_types with
      | .error e => .error e
      | .ok _ => validate_manage_iam_role config

/-! ## The interactive confirmation sink (spec section 6): the prompter
returns an answer; when abort-on-decline is set and the answer is false the
calling operation is aborted.  NoPrompt answers with the default. -/

/-- prompter.confirm(text, default, abort). -/
def confirm (env : Env) (w : World) (text : String) (dflt abortOnDecline : Bool) :
    MRes Bool :=
  let ans := env.answer text dflt abortOnDecline
  if abortOnDecline && !ans then
    (.error .aborted, w, [.confirmPrompt dflt abortOnDecline])
  else
    (.ok ans, w, [.confirmPrompt dflt abortOnDecline])

/-- NoPrompt.confirm answers every prompt with its default. -/
def NoPromptAnswer : String → Bool → Bool → Bool := fun _ dflt _ => dflt

namespace LambdaDeployer

/-- LambdaDeployer._get_lambda_timeout. -/
def get_lambda_timeout (config : Config) : Nat :=
  config.lambda_timeout.getD DEFAULT_LAMBDA_TIMEOUT

/-- LambdaDeployer._get_lambda_memory_size. -/
def get_lambda_memory_size (config : Config) : Nat :=
  config.lambda_memory_size.getD DEFAULT_LAMBDA_MEMORY_SIZE

/-- LambdaDeployer._delete_lambda_function: delete and swallow a
ResourceDoesNotExistError, printing instead. -/
def delete_lambda_function (w : World) (function_name_or_arn : String) : MRes Unit :=
  match delete_function w function_name_or_arn with
  | (.error (.rdne _), w2, t) => (.ok (), w2, t)
  | r => r

/-- LambdaDeployer._delete_api_handler. -/
def delete_api_handler (w : World) (existing_resources : DeployedResources) :
    MRes Unit :=
  delete_lambda_function w existing_resources.api_handler_name

/-- Loop of _delete_auth_handlers over the recorded function ARNs. -/
def deleteFunctionsList (w : World) : List String → MRes Unit
  | [] => (.ok (), w, [])
  | a :: rest =>
      match delete_lambda_function w a with
      | (.ok _, w2, t1) =>
          match deleteFunctionsList w2 rest with
          | (r, w3, t2) => (r, w3, t1 ++ t2)
      | (.error e, w2, t1) => (.error e, w2, t1)

/-- LambdaDeployer._delete_auth_handlers: delete every ARN in the recorded
lambda_functions mapping; nothing when the mapping is empty. -/
def delete_auth_handlers (w : World) (existing_resources : DeployedResources) :
    MRes Unit :=
  if existing_resources.lambda_functions.isEmpty then (.ok (), w, [])
  else deleteFunctionsList w (existing_resources.lambda_functions.map (fun p => p.2))

/-- LambdaDeployer._get_lambda_role_arn: role lookup with the
ResourceDoesNotExistError turned into none. -/
def get_lambda_role_arn (w : World) (role_name : String) :
    Option String × World × List Event :=
  match get_role_arn_for_name w role_name with
  | (.ok arn, w2, t) => (some arn, w2, t)
  | (.error _, w2, t) => (none, w2, t)

/-- Python role_arn.split("/")[1]; AWS role ARNs always contain a slash. -/
def roleNameFromArn (role_arn : String) : String :=
  (splitString '/' role_arn).getD 1 ""

/-- LambdaDeployer.delete: delete the api handler, delete every recorded
authorizer function, then look the role up by the handler name and, when
found, delete it only on an explicit confirmation whose default is
decline. -/
def delete (env : Env) (w : World) (existing_resources : DeployedResources) :
    MRes Unit :=
  match delete_api_handler w existing_resources with
  | (.error e, w1, t1) => (.error e, w1, t1)
  | (.ok _, w1, t1) =>
      match delete_auth_handlers w1 existing_resources with
      | (.error e, w2, t2) => (.error e, w2, t1 ++ t2)
      | (.ok _, w2, t2) =>
          match get_lambda_role_arn w2 existing_resources.api_handler_name with
          | (none, w3, t3) => (.ok (), w3, t1 ++ t2 ++ t3)
          | (some role_arn, w3, t3) =>
              let role_name := roleNameFromArn role_arn
              match confirm env w3 ("Delete the role " ++ role_name ++ "?")
                  false false with
              | (.ok true, w4, t4) =>
                  let (w5, t5) := delete_role w4 role_name
                  (.ok (), w5, t1 ++ t2 ++ t3 ++ t4 ++ t5)
              | (.ok false, w4, t4) => (.ok (), w4, t1 ++ t2 ++ t3 ++ t4)
              | (.error e, w4, t4) => (.error e, w4, t1 ++ t2 ++ t3 ++ t4)

/-- LambdaDeployer._update_role_with_latest_policy: generate the desired
policy, load the last applied one, diff; on a non-empty diff print it and
confirm (default proceed, abort on decline); then replace the attached
role policy and record the new document as last applied. -/
def update_role_with_latest_policy (env : Env) (w : World) (app_name : String)
    (config : Config) : MRes Unit :=
  match ApplicationPolicyHandler.generate_policy_from_app_source env w config with
  | .error e => (.error e, w, [])
  | .ok app_policy =>
      match ApplicationPolicyHandler.load_last_policy env w config with
      | .error e => (.error e, w, [])
      | .ok previous =>
          let d := diff_policies previous app_policy
          let step1 : MRes Unit :=
            if !d.isEmpty then
              match confirm env w "Would you like to continue? " true true with
              | (.ok _, w1, t1) => (.ok (), w1, t1)
              | (.error e, w1, t1) => (.error e, w1, t1)
            else (.ok (), w, [])
          match step1 with
          | (.error e, w1, t1) => (.error e, w1, t1)
          | (.ok _, w1, t1) =>
              let (w2, t2) := delete_role_policy w1 app_name app_name
              let (w3, t3) := put_role_policy w2 app_name app_name app_policy
              let (w4, t4) :=
                ApplicationPolicyHandler.record_policy env w3 config app_policy
              (.ok (), w4, t1 ++ t2 ++ t3 ++ t4)

/-- LambdaDeployer._create_role_from_source_code: generate the policy, show
it and confirm (default proceed) when it has more than one statement,
create the role with it attached, record it as last applied. -/
def create_role_from_source_code (env : Env) (w : World) (config : Config)
    (role_name : String) : MRes String :=
  match ApplicationPolicyHandler.generate_policy_from_app_source env w config with
  | .error e => (.error e, w, [])
  | .ok app_policy =>
      let step1 : MRes Unit :=
        if app_policy.statements.length > 1 then
          match confirm env w "Would you like to continue? " true true with
          | (.ok _, w1, t1) => (.ok (), w1, t1)
          | (.error e, w1, t1) => (.error e, w1, t1)
        else (.ok (), w, [])
      match step1 with
      | (.error e, w1, t1) => (.error e, w1, t1)
      | (.ok _, w1, t1) =>
          let (w2, role_arn, t2) := create_role env w1 role_name
          let (w3, t3) :=
            ApplicationPolicyHandler.record_policy env w2 config app_policy
          (.ok role_arn, w3, t1 ++ t2 ++ t3)

/-- LambdaDeployer._get_or_create_lambda_role_arn: the configured ARN
verbatim for an unmanaged role; otherwise probe the role by name, update
its policy when found (the try block spans both calls, so a
ResourceDoesNotExistError from either falls to the create path), create it
from source otherwise. -/
def get_or_create_lambda_role_arn (env : Env) (w : World) (config : Config)
    (role_name : String) : MRes String :=
  if !config.manage_iam_role then (.ok config.iam_role_arn, w, [])
  else
    match get_role_arn_for_name w role_name with
    | (.ok role_arn, w1, t1) =>
        match update_role_with_latest_policy env w1 role_name config with
        | (.ok _, w2, t2) => (.ok role_arn, w2, t1 ++ t2)
        | (.error (.rdne _), w2, t2) =>
            match create_role_from_source_code env w2 config role_name with
            | (r, w3, t3) => (r, w3, t1 ++ t2 ++ t3)
        | (.error e, w2, t2) => (.error e, w2, t1 ++ t2)
    | (.error (.rdne _), w1, t1) =>
        match create_role_from_source_code env w1 config role_name with
        | (r, w2, t2) => (r, w2, t1 ++ t2)
    | (.error e, w1, t1) => (.error e, w1, t1)

/-- LambdaDeployer._confirm_any_runtime_changes: read the live function
configuration and, when the runtime differs from the desired one, confirm
(default proceed, abort on decline). -/
def confirm_any_runtime_changes (env : Env) (w : World) (config : Config)
    (handler_name : String) : MRes Unit :=
  match w.functions.lookup handler_name with
  | none =>
      (.error (.awsClient ("no function named " ++ handler_name)), w,
       [.getFunctionConfig handler_name])
  | some info =>
      if info.runtime != config.lambda_python_version then
        match confirm env w "The python runtime will change, continue? "
            true true with
        | (.ok _, w1, t1) => (.ok (), w1, [.getFunctionConfig handler_name] ++ t1)
        | (.error e, w1, t1) => (.error e, w1, [.getFunctionConfig handler_name] ++ t1)
      else (.ok (), w, [.getFunctionConfig handler_name])

/-- LambdaDeployer._update_lambda_function: refresh or rebuild the artifact
(local packager steps), resolve the role, then issue the single update
call; returns the FunctionArn of the response. -/
def update_lambda_function (env : Env) (w : World) (config : Config)
    (lambda_name : String) (_stage_name : String) : MRes String :=
  match get_or_create_lambda_role_arn env w config lambda_name with
  | (.error e, w1, t1) => (.error e, w1, t1)
  | (.ok _, w1, t1) =>
      match update_function env w1 lambda_name config.lambda_python_version with
      | (r, w2, t2) => (r, w2, t1 ++ t2)

/-- LambdaDeployer._first_time_lambda_create: resolve or create the role,
build the deployment package, create the function, return its ARN. -/
def first_time_lambda_create (env : Env) (w : World) (config : Config)
    (function_name : String) (_stage_name : String) : MRes String :=
  match get_or_create_lambda_role_arn env w config function_name with
  | (.error e, w1, t1) => (.error e, w1, t1)
  | (.ok _, w1, t1) =>
      match create_function env w1 function_name config.lambda_python_version with
      | (r, w2, t2) => (r, w2, t1 ++ t2)

/-- LambdaDeployer._deploy_api_handler.  Returns the api handler name and
ARN placed into deployed_values.  The update path is taken exactly when a
prior record exists and the probe for its recorded name succeeds; on that
path the recorded ARN is reused.  Otherwise the create path uses the
synthetic name app_name-stage_name. -/
def deploy_api_handler (env : Env) (w : World) (config : Config)
    (existing : Option DeployedResources) (stage_name : String) :
    MRes (String × String) :=
  match existing with
  | some er =>
      match lambda_function_exists w er.api_handler_name with
      | (true, t0) =>
          let handler_name := er.api_handler_name
          match confirm_any_runtime_changes env w config handler_name with
          | (.error e, w1, t1) => (.error e, w1, t0 ++ t1)
          | (.ok _, w1, t1) =>
              match get_or_create_lambda_role_arn env w1 config handler_name with
              | (.error e, w2, t2) => (.error e, w2, t0 ++ t1 ++ t2)
              | (.ok _, w2, t2) =>
                  match update_lambda_function env w2 config handler_name
                      stage_name with
                  | (.error e, w3, t3) => (.error e, w3, t0 ++ t1 ++ t2 ++ t3)
                  | (.ok _, w3, t3) =>
                      (.ok (handler_name, er.api_handler_arn), w3,
                       t0 ++ t1 ++ t2 ++ t3)
      | (false, t0) =>
          let function_name := config.app_name ++ "-" ++ stage_name
          match first_time_lambda_create env w config function_name stage_name with
          | (.ok arn, w1, t1) => (.ok (function_name, arn), w1, t0 ++ t1)
          | (.error e, w1, t1) => (.error e, w1, t0 ++ t1)
  | none =>
      let function_name := config.app_name ++ "-" ++ stage_name
      match first_time_lambda_create env w config function_name stage_name with
      | (.ok arn, w1, t1) => (.ok (function_name, arn), w1, t1)
      | (.error e, w1, t1) => (.error e, w1, t1)

/-- LambdaDeployer._deploy_auth_handler: resolve the shared role by the api
handler name, then update or create the function named
api_handler_name-auth_name and record its ARN in the mapping. -/
def deploy_auth_handler (env : Env) (w : World) (config : Config)
    (auth_config : BuiltinAuthConfig) (stage_name : String)
    (api_handler_name : String) (acc : List (String × String)) :
    MRes (List (String × String)) :=
  match get_or_create_lambda_role_arn env w config api_handler_name with
  | (.error e, w1, t1) => (.error e, w1, t1)
  | (.ok _, w1, t1) =>
      let function_name := api_handler_name ++ "-" ++ auth_config.name
      match lambda_function_exists w1 function_name with
      | (true, t2) =>
          match update_lambda_function env w1 config function_name stage_name with
          | (.ok arn, w2, t3) =>
              (.ok (insertAssoc acc function_name arn), w2, t1 ++ t2 ++ t3)
          | (.error e, w2, t3) => (.error e, w2, t1 ++ t2 ++ t3)
      | (false, t2) =>
          match create_function env w1 function_name
              config.lambda_python_version with
          | (.ok arn, w2, t3) =>
              (.ok (insertAssoc acc function_name arn), w2, t1 ++ t2 ++ t3)
          | (.error e, w2, t3) => (.error e, w2, t1 ++ t2 ++ t3)

/-- Loop of _deploy_auth_handlers: each authorizer is deployed under a
scoped config. -/
def deployAuthList (env : Env) (w : World) (config : Config) :
    List BuiltinAuthConfig → String → String → List (String × String) →
    MRes (List (String × String))
  | [], _, _, acc => (.ok acc, w, [])
  | h :: rest, stage_name, api_handler_name, acc =>
      let new_config := env.scopeConfig config h.name
      match deploy_auth_handler env w new_config h stage_name api_handler_name acc with
      | (.error e, w1, t1) => (.error e, w1, t1)
      | (.ok acc2, w1, t1) =>
          match deployAuthList env w1 config rest stage_name api_handler_name acc2 with
          | (r, w2, t2) => (r, w2, t1 ++ t2)

/-- LambdaDeployer._deploy_auth_handlers: an empty mapping when no
authorizers are declared, otherwise one entry per declared authorizer. -/
def deploy_auth_handlers (env : Env) (w : World) (config : Config)
    (_existing : Option DeployedResources) (stage_name : String)
    (api_handler_name : String) : MRes (List (String × String)) :=
  match config.chalice_app.builtin_auth_handlers with
  | [] => (.ok [], w, [])
  | hs => deployAuthList env w config hs stage_name api_handler_name []

/-- LambdaDeployer._cleanup_unreferenced_functions: delete every ARN in the
previous record whose value set is not in the new mapping (a Python set
difference: duplicates collapse). -/
def cleanup_unreferenced_functions (w : World)
    (existing_resources : DeployedResources)
    (lambda_functions : List (String × String)) : MRes Unit :=
  let newArns := lambda_functions.map (fun p => p.2)
  let unreferenced :=
    ((existing_resources.lambda_functions.map (fun p => p.2)).filter
      (fun a => !(newArns.contains a))).dedup
  deleteFunctionsList w unreferenced

/-- The deployed_values accumulator produced by LambdaDeployer.deploy. -/
structure DeployedValues where
  api_handler_name : String
  api_handler_arn : String
  lambda_functions : List (String × String)
deriving DecidableEq

/-- LambdaDeployer.deploy: reconcile the api handler, then the authorizers,
then garbage collect unreferenced functions when a previous record
exists. -/
def deploy (env : Env) (w : World) (config : Config)
    (existing : Option DeployedResources) (stage_name : String) :
    MRes DeployedValues :=
  match deploy_api_handler env w config existing stage_name with
  | (.error e, w1, t1) => (.error e, w1, t1)
  | (.ok (hname, harn), w1, t1) =>
      match deploy_auth_handlers env w1 config existing stage_name hname with
      | (.error e, w2, t2) => (.error e, w2, t1 ++ t2)
      | (.ok lfs, w2, t2) =>
          match existing with
          | some er =>
              match cleanup_unreferenced_functions w2 er lfs with
              | (.error e, w3, t3) => (.error e, w3, t1 ++ t2 ++ t3)
              | (.ok _, w3, t3) =>
                  (.ok ⟨hname, harn, lfs⟩, w3, t1 ++ t2 ++ t3)
          | none => (.ok ⟨hname, harn, lfs⟩, w2, t1 ++ t2)

end LambdaDeployer

namespace APIGatewayDeployer

/-- Draw the next uuid from the supply (str(uuid.uuid4())). -/
def fresh_uuid (env : Env) (w : World) : String × World :=
  (env.uuids w.uuidCount, { w with uuidCount := w.uuidCount + 1 })

/-- The per-authorizer invoke-permission grants: one
add_permission_for_authorizer call per recorded ARN, each with a fresh
uuid. -/
def grantAuthList (env : Env) (w : World) (rest_api_id : String) :
    List String → World × List Event
  | [] => (w, [])
  | a :: rest =>
      let (u, w1) := fresh_uuid env w
      let (w2, t2) := grantAuthList env w1 rest_api_id rest
      (w2, Event.addAuthPermission rest_api_id a u :: t2)

/-- APIGatewayDeployer._deploy_api_to_stage: publish the rest api to the
stage, grant the gateway invoke permission on the api handler (function
name and account id parsed from the recorded handler ARN, statement id a
fresh uuid), then grant invoke permission for every authorizer in the
record. -/
def deploy_api_to_stage (env : Env) (w : World)
    (rest_api_id api_gateway_stage : String)
    (deployed_resources : LambdaDeployer.DeployedValues) : MRes Unit :=
  let parts := splitString ':' deployed_resources.api_handler_arn
  let function_name := parts.getLastD ""
  let account_id := parts.getD 4 ""
  let (u1, w1) := fresh_uuid env w
  let t0 := [Event.deployRestApi rest_api_id api_gateway_stage,
             Event.addPermission function_name account_id rest_api_id u1]
  let lambda_functions := deployed_resources.lambda_functions
  if lambda_functions.isEmpty then (.ok (), w1, t0)
  else
    let (w2, t2) := grantAuthList env w1 rest_api_id
      (lambda_functions.map (fun p => p.2))
    (.ok (), w2, t0 ++ t2)

/-- APIGatewayDeployer._first_time_deploy: generate the routing document
(local collaborator), create a new rest api from it, and publish to the
configured stage name or the fixed default. -/
def first_time_deploy (env : Env) (w : World) (config : Config)
    (deployed_resources : LambdaDeployer.DeployedValues) :
    MRes (String × String × String) :=
  let rest_api_id := env.importedRestApiId
  let t0 := [Event.importRestApi rest_api_id]
  let api_gateway_stage := config.api_gateway_stage.getD DEFAULT_STAGE_NAME
  match deploy_api_to_stage env w rest_api_id api_gateway_stage
      deployed_resources with
  | (.ok _, w2, t2) =>
      (.ok (rest_api_id, env.regionName, api_gateway_stage), w2, t0 ++ t2)
  | (.error e, w2, t2) => (.error e, w2, t0 ++ t2)

/-- APIGatewayDeployer._create_resources_for_api: regenerate the routing
document, push it as an update to the existing rest api, and publish to
the configured stage name or the fixed default. -/
def create_resources_for_api (env : Env) (w : World) (config : Config)
    (rest_api_id : String)
    (deployed_resources : LambdaDeployer.DeployedValues) :
    MRes (String × String × String) :=
  let t0 := [Event.updateRestApi rest_api_id]
  let api_gateway_stage := config.api_gateway_stage.getD DEFAULT_STAGE_NAME
  match deploy_api_to_stage env w rest_api_id api_gateway_stage
      deployed_resources with
  | (.ok _, w2, t2) =>
      (.ok (rest_api_id, env.regionName, api_gateway_stage), w2, t0 ++ t2)
  | (.error e, w2, t2) => (.error e, w2, t0 ++ t2)

/-- APIGatewayDeployer.deploy: reuse the recorded rest api when it still
exists, otherwise a first-time deploy. -/
def deploy (env : Env) (w : World) (config : Config)
    (existing : Option DeployedResources)
    (deployed_resources : LambdaDeployer.DeployedValues) :
    MRes (String × String × String) :=
  match existing with
  | some er =>
      let b := env.restApiExists er.rest_api_id
      let t0 := [Event.probeRestApi er.rest_api_id b]
      if b then
        match create_resources_for_api env w config er.rest_api_id
            deployed_resources with
        | (r, w1, t1) => (r, w1, t0 ++ t1)
      else
        match first_time_deploy env w config deployed_resources with
        | (r, w1, t1) => (r, w1, t0 ++ t1)
  | none => first_time_deploy env w config deployed_resources

/-- APIGatewayDeployer.delete: delete the recorded rest api, swallowing a
ResourceDoesNotExistError. -/
def delete (w : World) (existing_resources : DeployedResources) : MRes Unit :=
  (.ok (), w, [.deleteRestApi existing_resources.rest_api_id])

end APIGatewayDeployer

namespace Deployer

/-- Deployer.BACKEND_NAME. -/
def BACKEND_NAME : String := "api"

/-- Deployer.delete: a no-op with an informational message when no record
exists for the stage; otherwise rest api deletion followed by lambda-side
deletion. -/
def delete (env : Env) (w : World) (config : Config)
    (chalice_stage_name : String) : MRes Unit :=
  match config.deployed_resources chalice_stage_name with
  | none => (.ok (), w, [])
  | some er =>
      match APIGatewayDeployer.delete w er with
      | (.error e, w1, t1) => (.error e, w1, t1)
      | (.ok _, w1, t1) =>
          match LambdaDeployer.delete env w1 er with
          | (r, w2, t2) => (r, w2, t1 ++ t2)

/-- The value Deployer._do_deploy assembles for the stage. -/
structure DeployOutput where
  stage : String
  values : LambdaDeployer.DeployedValues
  rest_api_id : String
  api_gateway_stage : String
  region : String
deriving DecidableEq

/-- Deployer._do_deploy: validate first, then lambda-side reconciliation,
then gateway reconciliation, assembling the resulting record. -/
def do_deploy (env : Env) (w : World) (config : Config)
    (chalice_stage_name : String) : MRes DeployOutput :=
  match validate_configuration config with
  | .error e => (.error e, w, [])
  | .ok _ =>
      let existing := config.deployed_resources chalice_stage_name
      match LambdaDeployer.deploy env w config existing chalice_stage_name with
      | (.error e, w1, t1) => (.error e, w1, t1)
      | (.ok dv, w1, t1) =>
          match APIGatewayDeployer.deploy env w1 config existing dv with
          | (.error e, w2, t2) => (.error e, w2, t1 ++ t2)
          | (.ok (rest_api_id, region_name, apig_stage), w2, t2) =>
              (.ok ⟨chalice_stage_name, dv, rest_api_id, apig_stage, region_name⟩,
               w2, t1 ++ t2)

/-- Deployer.deploy: run _do_deploy and re-raise any _AWSCLIENT_EXCEPTIONS
error as ChaliceDeploymentError; everything else propagates unchanged. -/
def deploy (env : Env) (w : World) (config : Config)
    (chalice_stage_name : String) : MRes DeployOutput :=
  match do_deploy env w config chalice_stage_name with
  | (.error (.awsClient m), w1, t1) => (.error (.deployment m), w1, t1)
  | r => r

end Deployer

/-! ## Trace observations. -/

/-- The arguments of the deleteFunction calls of a trace, in order. -/
def deletedArns (t : List Event) : List String :=
  t.filterMap (fun e => match e with | .deleteFunction x => some x | _ => none)

/-- The names passed to create_function, in order. -/
def createdFunctionNames (t : List Event) : List String :=
  t.filterMap (fun e => match e with | .createFunction n => some n | _ => none)

/-- The names passed to update_function, in order. -/
def updatedFunctionNames (t : List Event) : List String :=
  t.filterMap (fun e => match e with | .updateFunction n => some n | _ => none)

/-- The names probed with lambda_function_exists, in order. -/
def probedFunctionNames (t : List Event) : List String :=
  t.filterMap (fun e => match e with | .probeFunction n _ => some n | _ => none)

/-- The names passed to delete_role, in order. -/
def deletedRoleNames (t : List Event) : List String :=
  t.filterMap (fun e => match e with | .deleteRole n => some n | _ => none)

/-- The (default, abortOnDecline) pairs of the confirmation prompts of a
trace, in order. -/
def confirmEvents (t : List Event) : List (Bool × Bool) :=
  t.filterMap (fun e => match e with | .confirmPrompt d a => some (d, a) | _ => none)

/-- The filenames written by record_policy, in order. -/
def recordedPolicyFiles (t : List Event) : List String :=
  t.filterMap (fun e => match e with | .recordPolicyFile f => some f | _ => none)

theorem deletedArns_append (a b : List Event) :
    deletedArns (a ++ b) = deletedArns a ++ deletedArns b :=
  List.filterMap_append a b _

theorem createdFunctionNames_append (a b : List Event) :
    createdFunctionNames (a ++ b) =
      createdFunctionNames a ++ createdFunctionNames b :=
  List.filterMap_append a b _

theorem updatedFunctionNames_append (a b : List Event) :
    updatedFunctionNames (a ++ b) =
      updatedFunctionNames a ++ updatedFunctionNames b :=
  List.filterMap_append a b _

theorem probedFunctionNames_append (a b : List Event) :
    probedFunctionNames (a ++ b) =
      probedFunctionNames a ++ probedFunctionNames b :=
  List.filterMap_append a b _

theorem deletedRoleNames_append (a b : List Event) :
    deletedRoleNames (a ++ b) = deletedRoleNames a ++ deletedRoleNames b :=
  List.filterMap_append a b _

theorem confirmEvents_append (a b : List Event) :
    confirmEvents (a ++ b) = confirmEvents a ++ confirmEvents b :=
  List.filterMap_append a b _

theorem recordedPolicyFiles_append (a b : List Event) :
    recordedPolicyFiles (a ++ b) =
      recordedPolicyFiles a ++ recordedPolicyFiles b :=
  List.filterMap_append a b _

/-! ## Trace-shape lemmas for the individual calls. -/

/-- A trace with no lambda-function calls at all. -/
def noFnEvents (t : List Event) : Prop :=
  createdFunctionNames t = [] ∧ updatedFunctionNames t = [] ∧
  probedFunctionNames t = [] ∧ deletedArns t = []

theorem noFnEvents_nil : noFnEvents [] := by
  simp [noFnEvents, createdFunctionNames, updatedFunctionNames,
        probedFunctionNames, deletedArns]

theorem noFnEvents_append {a b : List Event}
    (ha : noFnEvents a) (hb : noFnEvents b) : noFnEvents (a ++ b) := by
  obtain ⟨ha1, ha2, ha3, ha4⟩ := ha
  obtain ⟨hb1, hb2, hb3, hb4⟩ := hb
  exact ⟨by rw [createdFunctionNames_append, ha1, hb1]; rfl,
         by rw [updatedFunctionNames_append, ha2, hb2]; rfl,
         by rw [probedFunctionNames_append, ha3, hb3]; rfl,
         by rw [deletedArns_append, ha4, hb4]; rfl⟩

theorem noFnEvents_confirmPrompt (d a : Bool) :
    noFnEvents [Event.confirmPrompt d a] := by
  simp [noFnEvents, createdFunctionNames, updatedFunctionNames,
        probedFunctionNames, deletedArns]

theorem noFnEvents_probeRole (n : String) : noFnEvents [Event.probeRole n] := by
  simp [noFnEvents, createdFunctionNames, updatedFunctionNames,
        probedFunctionNames, deletedArns]

theorem noFnEvents_roleWrite (n m f : String) :
    noFnEvents [Event.deleteRolePolicy n m] ∧
    noFnEvents [Event.putRolePolicy n m] ∧
    noFnEvents [Event.recordPolicyFile f] ∧
    noFnEvents [Event.createRole n] ∧
    noFnEvents [Event.getFunctionConfig n] := by
  refine ⟨?_, ?_, ?_, ?_, ?_⟩ <;>
    simp [noFnEvents, createdFunctionNames, updatedFunctionNames,
          probedFunctionNames, deletedArns]

theorem confirm_trace (env : Env) (w : World) (text : String) (d a : Bool) :
    (confirm env w text d a).2.2 = [Event.confirmPrompt d a] := by
  simp only [confirm]
  split <;> rfl

theorem confirm_world (env : Env) (w : World) (text : String) (d a : Bool) :
    (confirm env w text d a).2.1 = w := by
  simp only [confirm]
  split <;> rfl

theorem get_role_arn_trace (w : World) (n : String) :
    (get_role_arn_for_name w n).2.2 = [Event.probeRole n] := by
  simp only [get_role_arn_for_name]
  split <;> rfl

theorem get_role_arn_world (w : World) (n : String) :
    (get_role_arn_for_name w n).2.1 = w := by
  simp only [get_role_arn_for_name]
  split <;> rfl

/-- app_policy_file reads only the policy-file overlay of the world. -/
theorem app_policy_file_congr (env : Env) {w w2 : World} (config : Config)
    (h : w2.policyFiles = w.policyFiles) :
    ApplicationPolicyHandler.app_policy_file env w2 config =
      ApplicationPolicyHandler.app_policy_file env w config := by
  simp only [ApplicationPolicyHandler.app_policy_file, fileExistsW, h]

/-- Looking up the key just written by insertAssoc yields the new value. -/
theorem lookup_insertAssoc_self {α : Type} (l : List (String × α)) (k : String)
    (v : α) : (insertAssoc l k v).lookup k = some v := by
  induction l with
  | nil => simp [insertAssoc, List.lookup]
  | cons p rest ih =>
      obtain ⟨k2, v2⟩ := p
      by_cases h : k2 = k
      · simp [insertAssoc, h, List.lookup]
      · have hne : (k == k2) = false := beq_eq_false_iff_ne.mpr (fun hk => h hk.symm)
        simp [insertAssoc, if_neg h, List.lookup, hne, ih]

/-- Exact characterization of _update_role_with_latest_policy. -/
theorem update_role_with_latest_policy_eq (env : Env) (w : World)
    (app_name : String) (config : Config) :
    LambdaDeployer.update_role_with_latest_policy env w app_name config =
      (match ApplicationPolicyHandler.generate_policy_from_app_source env w config with
       | .error e => (.error e, w, [])
       | .ok gen =>
         match ApplicationPolicyHandler.load_last_policy env w config with
         | .error e => (.error e, w, [])
         | .ok prev =>
           let f := ApplicationPolicyHandler.app_policy_file env w config
           let tail : List Event :=
             [.deleteRolePolicy app_name app_name, .putRolePolicy app_name app_name,
              .recordPolicyFile f]
           let wRec : World :=
             { w with policyFiles := insertAssoc w.policyFiles f gen }
           if (diff_policies prev gen).isEmpty then (.ok (), wRec, tail)
           else if env.answer "Would you like to continue? " true true then
             (.ok (), wRec, .confirmPrompt true true :: tail)
           else (.error .aborted, w, [.confirmPrompt true true])) := by
  simp only [LambdaDeployer.update_role_with_latest_policy]
  cases hg : ApplicationPolicyHandler.generate_policy_from_app_source env w config with
  | error e => rfl
  | ok gen =>
      cases hl : ApplicationPolicyHandler.load_last_policy env w config with
      | error e => rfl
      | ok prev =>
          by_cases hd : (diff_policies prev gen).isEmpty
          · simp [hd, delete_role_policy, put_role_policy,
                  ApplicationPolicyHandler.record_policy]
          · by_cases ha : env.answer "Would you like to continue? " true true
            · simp [hd, ha, confirm, delete_role_policy, put_role_policy,
                    ApplicationPolicyHandler.record_policy]
            · simp [hd, ha, confirm]

theorem update_role_with_latest_policy_noFn (env : Env) (w : World)
    (app_name : String) (config : Config) :
    noFnEvents (LambdaDeployer.update_role_with_latest_policy env w
      app_name config).2.2 := by
  rw [update_role_with_latest_policy_eq]
  cases hg : ApplicationPolicyHandler.generate_policy_from_app_source env w config with
  | error e => exact noFnEvents_nil
  | ok gen =>
      cases hl : ApplicationPolicyHandler.load_last_policy env w config with
      | error e => exact noFnEvents_nil
      | ok prev =>
          by_cases hd : (diff_policies prev gen).isEmpty
          · simp only [hd, if_true]
            simp [noFnEvents, createdFunctionNames, updatedFunctionNames,
                  probedFunctionNames, deletedArns]
          · by_cases ha : env.answer "Would you like to continue? " true true
            · simp only [hd, ha, if_false, if_true, Bool.false_eq_true]
              simp [noFnEvents, createdFunctionNames, updatedFunctionNames,
                    probedFunctionNames, deletedArns]
            · simp only [hd, ha, if_false, Bool.false_eq_true]
              simp [noFnEvents, createdFunctionNames, updatedFunctionNames,
                    probedFunctionNames, deletedArns]

/-- Exact characterization of _create_role_from_source_code. -/
theorem create_role_from_source_code_eq (env : Env) (w : World) (config : Config)
    (role_name : String) :
    LambdaDeployer.create_role_from_source_code env w config role_name =
      (match ApplicationPolicyHandler.generate_policy_from_app_source env w config with
       | .error e => (.error e, w, [])
       | .ok gen =>
         let f := ApplicationPolicyHandler.app_policy_file env w config
         let arn := env.roleArnOf role_name
         let wC : World :=
           { w with roles := insertAssoc w.roles role_name arn,
                    policyFiles := insertAssoc w.policyFiles f gen }
         let tail : List Event := [.createRole role_name, .recordPolicyFile f]
         if gen.statements.length > 1 then
           if env.answer "Would you like to continue? " true true then
             (.ok arn, wC, .confirmPrompt true true :: tail)
           else (.error .aborted, w, [.confirmPrompt true true])
         else (.ok arn, wC, tail)) := by
  simp only [LambdaDeployer.create_role_from_source_code]
  cases hg : ApplicationPolicyHandler.generate_policy_from_app_source env w config with
  | error e => rfl
  | ok gen =>
      by_cases hl : gen.statements.length > 1
      · by_cases ha : env.answer "Would you like to continue? " true true
        · simp [hl, ha, confirm, create_role,
                ApplicationPolicyHandler.record_policy]
          try exact ⟨rfl, rfl⟩
        · simp [hl, ha, confirm]
      · simp [hl, confirm, create_role, ApplicationPolicyHandler.record_policy]
        try exact ⟨rfl, rfl⟩

theorem create_role_from_source_code_noFn (env : Env) (w : World)
    (config : Config) (role_name : String) :
    noFnEvents (LambdaDeployer.create_role_from_source_code env w config
      role_name).2.2 := by
  rw [create_role_from_source_code_eq]
  cases hg : ApplicationPolicyHandler.generate_policy_from_app_source env w config with
  | error e => exact noFnEvents_nil
  | ok gen =>
      by_cases hl : gen.statements.length > 1
      · by_cases ha : env.answer "Would you like to continue? " true true
        · simp only [hl, ha, if_true]
          simp [noFnEvents, createdFunctionNames, updatedFunctionNames,
                probedFunctionNames, deletedArns]
        · simp only [hl, ha, if_true, if_false, Bool.false_eq_true]
          simp [noFnEvents, createdFunctionNames, updatedFunctionNames,
                probedFunctionNames, deletedArns]
      · simp only [hl, if_false]
        simp [noFnEvents, createdFunctionNames, updatedFunctionNames,
              probedFunctionNames, deletedArns]

theorem get_or_create_lambda_role_arn_noFn (env : Env) (w : World)
    (config : Config) (role_name : String) :
    noFnEvents (LambdaDeployer.get_or_create_lambda_role_arn env w config
      role_name).2.2 := by
  simp only [LambdaDeployer.get_or_create_lambda_role_arn]
  split
  · exact noFnEvents_nil
  · rcases heq : get_role_arn_for_name w role_name with ⟨r1, w1, t1⟩
    have ht1 : t1 = [Event.probeRole role_name] := by
      have := get_role_arn_trace w role_name
      rw [heq] at this
      exact this
    have hp : noFnEvents t1 := ht1 ▸ noFnEvents_probeRole role_name
    cases r1 with
    | ok role_arn =>
        simp only []
        rcases heq2 : LambdaDeployer.update_role_with_latest_policy env w1
            role_name config with ⟨r2, w2, t2⟩
        have ht2 : noFnEvents t2 := by
          have := update_role_with_latest_policy_noFn env w1 role_name config
          rw [heq2] at this
          exact this
        cases r2 with
        | ok u => exact noFnEvents_append hp ht2
        | error e =>
            cases e with
            | rdne s =>
                exact noFnEvents_append (noFnEvents_append hp ht2)
                  (create_role_from_source_code_noFn env w2 config role_name)
            | validation m => exact noFnEvents_append hp ht2
            | awsClient m => exact noFnEvents_append hp ht2
            | deployment m => exact noFnEvents_append hp ht2
            | malformedPolicyFile m => exact noFnEvents_append hp ht2
            | aborted => exact noFnEvents_append hp ht2
    | error e =>
        cases e with
        | rdne s =>
            exact noFnEvents_append hp
              (create_role_from_source_code_noFn env w1 config role_name)
        | validation m => exact hp
        | awsClient m => exact hp
        | deployment m => exact hp
        | malformedPolicyFile m => exact hp
        | aborted => exact hp

theorem confirm_any_runtime_changes_noFn (env : Env) (w : World)
    (config : Config) (handler_name : String) :
    noFnEvents (LambdaDeployer.confirm_any_runtime_changes env w config
      handler_name).2.2 := by
  simp only [LambdaDeployer.confirm_any_runtime_changes]
  split
  · exact (noFnEvents_roleWrite handler_name "" "").2.2.2.2
  · split
    · rcases heq : confirm env w "The python runtime will change, continue? "
          true true with ⟨r1, w1, t1⟩
      have ht1 : t1 = [Event.confirmPrompt true true] := by
        have := confirm_trace env w "The python runtime will change, continue? "
          true true
        rw [heq] at this
        exact this
      have hp : noFnEvents t1 := ht1 ▸ noFnEvents_confirmPrompt true true
      cases r1 with
      | ok b =>
          exact noFnEvents_append
            (noFnEvents_roleWrite handler_name "" "").2.2.2.2 hp
      | error e =>
          exact noFnEvents_append
            (noFnEvents_roleWrite handler_name "" "").2.2.2.2 hp
    · exact (noFnEvents_roleWrite handler_name "" "").2.2.2.2

/-- update_function always leaves exactly its own call event. -/
theorem update_function_trace (env : Env) (w : World) (n rt : String) :
    (update_function env w n rt).2.2 = [Event.updateFunction n] := by
  simp only [update_function]
  split
  · rfl
  · split <;> rfl

/-- create_function always leaves exactly its own call event. -/
theorem create_function_trace (env : Env) (w : World) (n rt : String) :
    (create_function env w n rt).2.2 = [Event.createFunction n] := by
  simp only [create_function]
  split <;> rfl

/-- On success, _update_lambda_function touched exactly one function: one
update call for the given name, no create, probe or delete. -/
theorem update_lambda_function_ok_shape {env : Env} {w : World} {config : Config}
    {n s a : String} {w2 : World} {t : List Event}
    (h : LambdaDeployer.update_lambda_function env w config n s = (.ok a, w2, t)) :
    createdFunctionNames t = [] ∧ updatedFunctionNames t = [n] ∧
    probedFunctionNames t = [] ∧ deletedArns t = [] := by
  simp only [LambdaDeployer.update_lambda_function] at h
  rcases heq1 : LambdaDeployer.get_or_create_lambda_role_arn env w config n
    with ⟨r1, w1, t1⟩
  rw [heq1] at h
  have ht1 : noFnEvents t1 := by
    have := get_or_create_lambda_role_arn_noFn env w config n
    rw [heq1] at this
    exact this
  cases r1 with
  | error e => simp at h
  | ok u =>
      simp only [] at h
      rcases heq2 : update_function env w1 n config.lambda_python_version
        with ⟨r2, w2x, t2⟩
      rw [heq2] at h
      have ht2 : t2 = [Event.updateFunction n] := by
        have := update_function_trace env w1 n config.lambda_python_version
        rw [heq2] at this
        exact this
      have ht : t = t1 ++ t2 := (congrArg (fun x => x.2.2) h).symm
      obtain ⟨h1, h2, h3, h4⟩ := ht1
      subst ht
      subst ht2
      refine ⟨?_, ?_, ?_, ?_⟩
      · rw [createdFunctionNames_append, h1]
        simp [createdFunctionNames]
      · rw [updatedFunctionNames_append, h2]
        simp [updatedFunctionNames]
      · rw [probedFunctionNames_append, h3]
        simp [probedFunctionNames]
      · rw [deletedArns_append, h4]
        simp [deletedArns]

/-- On success, _first_time_lambda_create touched exactly one function: one
create call for the given name, no update, probe or delete. -/
theorem first_time_lambda_create_ok_shape {env : Env} {w : World} {config : Config}
    {n s a : String} {w2 : World} {t : List Event}
    (h : LambdaDeployer.first_time_lambda_create env w config n s = (.ok a, w2, t)) :
    createdFunctionNames t = [n] ∧ updatedFunctionNames t = [] ∧
    probedFunctionNames t = [] ∧ deletedArns t = [] := by
  simp only [LambdaDeployer.first_time_lambda_create] at h
  rcases heq1 : LambdaDeployer.get_or_create_lambda_role_arn env w config n
    with ⟨r1, w1, t1⟩
  rw [heq1] at h
  have ht1 : noFnEvents t1 := by
    have := get_or_create_lambda_role_arn_noFn env w config n
    rw [heq1] at this
    exact this
  cases r1 with
  | error e => simp at h
  | ok u =>
      simp only [] at h
      rcases heq2 : create_function env w1 n config.lambda_python_version
        with ⟨r2, w2x, t2⟩
      rw [heq2] at h
      have ht2 : t2 = [Event.createFunction n] := by
        have := create_function_trace env w1 n config.lambda_python_version
        rw [heq2] at this
        exact this
      have ht : t = t1 ++ t2 := (congrArg (fun x => x.2.2) h).symm
      obtain ⟨h1, h2, h3, h4⟩ := ht1
      subst ht
      subst ht2
      refine ⟨?_, ?_, ?_, ?_⟩
      · rw [createdFunctionNames_append, h1]
        simp [createdFunctionNames]
      · rw [updatedFunctionNames_append, h2]
        simp [updatedFunctionNames]
      · rw [probedFunctionNames_append, h3]
        simp [probedFunctionNames]
      · rw [deletedArns_append, h4]
        simp [deletedArns]

/-! ## Concrete instances used by the witnesses. -/

/-- The empty world: no remote functions, no roles, no files written, no
uuids drawn. -/
def w0 : World := ⟨[], [], [], 0⟩

/-- A small application with one plain route and no authorizers. -/
def baseApp : ChaliceApp :=
  { routes := [("/", [("GET", ⟨"index", ["application/json"], none⟩)])],
    builtin_auth_handlers := [],
    api_binary_types := [] }

/-- A base config: managed role, autogenerated policy, default stage, no
prior record. -/
def baseConfig : Config :=
  { app_name := "app", project_dir := "p", chalice_stage := "dev",
    manage_iam_role := true, iam_role_arn := "", autogen_policy := true,
    iam_policy_file := none, lambda_python_version := "python2.7",
    environment_variables := [], tags := [], lambda_timeout := none,
    lambda_memory_size := none, api_gateway_stage := none,
    chalice_app := baseApp, deployed_resources := fun _ => none }

/-- A base environment: empty base file system, NoPrompt answers,
deterministic ARN and uuid generation, no upload faults. -/
def baseEnv : Env :=
  { fsExists := fun _ => false, fsDoc := fun _ => none,
    answer := NoPromptAnswer,
    funcArnOf := fun n => "arn:aws:lambda:r:12345:function:" ++ n,
    roleArnOf := fun n => "arn:aws:iam::12345:role/" ++ n,
    regionName := "r", genPolicy := fun _ => EMPTY_POLICY,
    deploymentPackageFilename := fun p => p ++ "/pkg.zip",
    restApiExists := fun _ => false, importedRestApiId := "api123",
    uuids := fun n => "uuid-" ++ toString n,
    createFault := fun _ => none, updateFault := fun _ => none,
    scopeConfig := fun c _ => c }

/-! ## C1 -/

/-- C1: ApplicationPolicyHandler.load_last_policy returns the
empty-statement document when the resolved policy file does not exist, and
fails with the malformed-policy-file condition when the file exists but
its contents do not parse as a permission document. -/
theorem load_last_policy_cases (env : Env) (w : World) (config : Config) :
    (fileExistsW env w (ApplicationPolicyHandler.app_policy_file env w config) = false →
      ApplicationPolicyHandler.load_last_policy env w config = .ok EMPTY_POLICY) ∧
    (fileExistsW env w (ApplicationPolicyHandler.app_policy_file env w config) = true →
      readPolicyDoc env w (ApplicationPolicyHandler.app_policy_file env w config) = none →
      ApplicationPolicyHandler.load_last_policy env w config =
        .error (.malformedPolicyFile
          (ApplicationPolicyHandler.app_policy_file env w config))) := by
  constructor
  · intro h
    simp [ApplicationPolicyHandler.load_last_policy, h]
  · intro h hp
    simp [ApplicationPolicyHandler.load_last_policy, h, hp]

/-- An environment whose base file system has every file present with
contents that do not parse. -/
def envBadFile : Env := { baseEnv with fsExists := fun _ => true }

/-- C1 witness: with no file on disk the loader returns the empty
document; with a present but unparseable policy-dev.json it fails with the
malformed-policy-file condition naming that file. -/
theorem load_last_policy_cases_witness :
    ApplicationPolicyHandler.load_last_policy baseEnv w0 baseConfig = .ok EMPTY_POLICY ∧
    ApplicationPolicyHandler.load_last_policy envBadFile w0 baseConfig =
      .error (.malformedPolicyFile "p/.chalice/policy-dev.json") :=
  ⟨(load_last_policy_cases baseEnv w0 baseConfig).1 (by decide),
   (load_last_policy_cases envBadFile w0 baseConfig).2 (by decide) (by decide)⟩

/-! ## C5 -/

/-- C5: when an existing identity is found and its policy is refreshed, the
confirmation prompt (default proceed, abort on decline) is issued exactly
when the diff between the last-applied document and the newly generated one
is non-empty, and on success the new document is recorded as last applied
in every case, whether or not a prompt was shown. -/
theorem update_role_policy_prompt_iff_diff (env : Env) (w : World)
    (app_name : String) (config : Config) (gen prev : PolicyDoc) {w2 : World}
    {t : List Event}
    (hg : ApplicationPolicyHandler.generate_policy_from_app_source env w config
            = .ok gen)
    (hp : ApplicationPolicyHandler.load_last_policy env w config = .ok prev)
    (hr : LambdaDeployer.update_role_with_latest_policy env w app_name config
            = (.ok (), w2, t)) :
    confirmEvents t =
      (if (diff_policies prev gen).isEmpty then [] else [(true, true)]) ∧
    recordedPolicyFiles t =
      [ApplicationPolicyHandler.app_policy_file env w config] ∧
    w2.policyFiles.lookup (ApplicationPolicyHandler.app_policy_file env w config)
      = some gen := by
  rw [update_role_with_latest_policy_eq, hg, hp] at hr
  simp only [] at hr
  by_cases hd : (diff_policies prev gen).isEmpty
  · rw [if_pos hd] at hr
    simp only [Prod.mk.injEq] at hr
    obtain ⟨-, hw, ht⟩ := hr
    subst hw
    subst ht
    rw [if_pos hd]
    refine ⟨by simp [confirmEvents], by simp [recordedPolicyFiles], ?_⟩
    exact lookup_insertAssoc_self ..
  · rw [if_neg hd] at hr
    by_cases ha : env.answer "Would you like to continue? " true true
    · rw [if_pos ha] at hr
      simp only [Prod.mk.injEq] at hr
      obtain ⟨-, hw, ht⟩ := hr
      subst hw
      subst ht
      rw [if_neg hd]
      refine ⟨by simp [confirmEvents], by simp [recordedPolicyFiles], ?_⟩
      exact lookup_insertAssoc_self ..
    · rw [if_neg ha] at hr
      simp at hr

/-- The trace of the C5 witness run: an empty diff, so no prompt, and the
generated document recorded. -/
def c5t : List Event :=
  [.deleteRolePolicy "app-dev" "app-dev", .putRolePolicy "app-dev" "app-dev",
   .recordPolicyFile "p/.chalice/policy.json"]

/-- The world after the C5 witness run. -/
def c5w : World := ⟨[], [], [("p/.chalice/policy.json", EMPTY_POLICY)], 0⟩

/-- C5 witness. -/
theorem update_role_policy_prompt_iff_diff_witness :
    confirmEvents c5t =
      (if (diff_policies EMPTY_POLICY EMPTY_POLICY).isEmpty then []
       else [(true, true)]) ∧
    recordedPolicyFiles c5t =
      [ApplicationPolicyHandler.app_policy_file baseEnv w0 baseConfig] ∧
    c5w.policyFiles.lookup
      (ApplicationPolicyHandler.app_policy_file baseEnv w0 baseConfig)
      = some EMPTY_POLICY :=
  update_role_policy_prompt_iff_diff baseEnv w0 "app-dev" baseConfig
    EMPTY_POLICY EMPTY_POLICY rfl rfl rfl

/-! ## C6 -/

/-- C6: on the update path of _deploy_api_handler, the name and ARN placed
into the resource record are copied verbatim from the previous
DeployedResources record; the response of the update call is never
consulted for the ARN. -/
theorem deploy_api_handler_update_uses_recorded_arn (env : Env) (w : World)
    (config : Config) (er : DeployedResources) (stage_name : String)
    {r : String × String} {w2 : World} {t : List Event}
    (hexists : (w.functions.lookup er.api_handler_name).isSome = true)
    (hr : LambdaDeployer.deploy_api_handler env w config (some er) stage_name
            = (.ok r, w2, t)) :
    r = (er.api_handler_name, er.api_handler_arn) := by
  simp only [LambdaDeployer.deploy_api_handler, lambda_function_exists,
             hexists] at hr
  rcases heq1 : LambdaDeployer.confirm_any_runtime_changes env w config
      er.api_handler_name with ⟨r1, w1, t1⟩
  rw [heq1] at hr
  cases r1 with
  | error e => simp at hr
  | ok u =>
      simp only [] at hr
      rcases heq2 : LambdaDeployer.get_or_create_lambda_role_arn env w1 config
          er.api_handler_name with ⟨r2, wB, t2⟩
      rw [heq2] at hr
      cases r2 with
      | error e => simp at hr
      | ok u2 =>
          simp only [] at hr
          rcases heq3 : LambdaDeployer.update_lambda_function env wB config
              er.api_handler_name stage_name with ⟨r3, wC, t3⟩
          rw [heq3] at hr
          cases r3 with
          | error e => simp at hr
          | ok u3 =>
              have := congrArg (fun x => x.1) hr
              simp at this
              exact this.symm

/-- The prior record of the C6 witness: its recorded ARN differs from the
ARN the remote function actually has, so only a verbatim copy can
produce it. -/
def erC6 : DeployedResources :=
  { api_handler_name := "app-dev", api_handler_arn := "arn:recorded:primary",
    lambda_functions := [], rest_api_id := "rid" }

/-- The starting world of the C6 witness: the function exists remotely with
a different ARN, the role exists, and the last-applied policy file matches
the generated one so no prompt fires. -/
def wC6 : World :=
  ⟨[("app-dev", ⟨"arn:stored:other", "python2.7"⟩)],
   [("app-dev", "arn:aws:iam::12345:role/app-dev")],
   [("p/.chalice/policy.json", EMPTY_POLICY)], 0⟩

/-- C6 witness: the update path, run against a remote ARN that differs from
the recorded one, still returns the recorded name and ARN. -/
theorem deploy_api_handler_update_uses_recorded_arn_witness :
    (wC6.functions.lookup "app-dev").isSome = true ∧
    wC6.functions.lookup "app-dev" = some ⟨"arn:stored:other", "python2.7"⟩ ∧
    ("app-dev", "arn:recorded:primary") =
      (erC6.api_handler_name, erC6.api_handler_arn) :=
  ⟨by decide, by decide,
   deploy_api_handler_update_uses_recorded_arn baseEnv wC6 baseConfig erC6 "dev"
     (by decide) rfl⟩

/-! ## C3 -/

/-- C3: the update path of the primary compute deploy is taken exactly when
a prior record exists and the existence probe for the recorded name
succeeds.  With no prior record the create path runs with the synthetic
name app_name-stage_name and no function probe is issued at all; with a
prior record whose probed function is absent remotely the create path runs
(stale-record tolerance) and no update call is issued. -/
theorem deploy_api_handler_create_vs_update (env : Env) (w : World)
    (config : Config) (existing : Option DeployedResources) (stage_name : String)
    {r : String × String} {w2 : World} {t : List Event}
    (hr : LambdaDeployer.deploy_api_handler env w config existing stage_name
            = (.ok r, w2, t)) :
    (existing = none →
       probedFunctionNames t = [] ∧
       createdFunctionNames t = [config.app_name ++ "-" ++ stage_name] ∧
       updatedFunctionNames t = []) ∧
    (∀ er, existing = some er →
       (w.functions.lookup er.api_handler_name).isSome = false →
       probedFunctionNames t = [er.api_handler_name] ∧
       createdFunctionNames t = [config.app_name ++ "-" ++ stage_name] ∧
       updatedFunctionNames t = []) ∧
    (∀ er, existing = some er →
       (w.functions.lookup er.api_handler_name).isSome = true →
       updatedFunctionNames t = [er.api_handler_name] ∧
       createdFunctionNames t = []) := by
  cases existing with
  | none =>
      refine ⟨?_, fun er h => Option.noConfusion h, fun er h => Option.noConfusion h⟩
      intro _
      simp only [LambdaDeployer.deploy_api_handler] at hr
      rcases heq : LambdaDeployer.first_time_lambda_create env w config
          (config.app_name ++ "-" ++ stage_name) stage_name with ⟨r1, w1, t1⟩
      rw [heq] at hr
      cases r1 with
      | error e => simp at hr
      | ok arn =>
          have hsh := first_time_lambda_create_ok_shape heq
          have ht : t = t1 := (congrArg (fun x => x.2.2) hr).symm
          subst ht
          exact ⟨hsh.2.2.1, hsh.1, hsh.2.1⟩
  | some er0 =>
      by_cases hb : (w.functions.lookup er0.api_handler_name).isSome
      · refine ⟨fun h => Option.noConfusion h, ?_, ?_⟩
        · rintro er ⟨⟩ hfalse
          rw [hb] at hfalse
          cases hfalse
        · rintro er ⟨⟩ -
          simp only [LambdaDeployer.deploy_api_handler, lambda_function_exists,
                     hb] at hr
          rcases heq1 : LambdaDeployer.confirm_any_runtime_changes env w config
              er0.api_handler_name with ⟨r1, w1, t1⟩
          rw [heq1] at hr
          cases r1 with
          | error e => simp at hr
          | ok u =>
              have ht1 : noFnEvents t1 := by
                have := confirm_any_runtime_changes_noFn env w config
                  er0.api_handler_name
                rw [heq1] at this
                exact this
              simp only [] at hr
              rcases heq2 : LambdaDeployer.get_or_create_lambda_role_arn env w1
                  config er0.api_handler_name with ⟨r2, wB, t2⟩
              rw [heq2] at hr
              cases r2 with
              | error e => simp at hr
              | ok u2 =>
                  have ht2 : noFnEvents t2 := by
                    have := get_or_create_lambda_role_arn_noFn env w1 config
                      er0.api_handler_name
                    rw [heq2] at this
                    exact this
                  simp only [] at hr
                  rcases heq3 : LambdaDeployer.update_lambda_function env wB
                      config er0.api_handler_name stage_name with ⟨r3, wC, t3⟩
                  rw [heq3] at hr
                  cases r3 with
                  | error e => simp at hr
                  | ok u3 =>
                      have hsh := update_lambda_function_ok_shape heq3
                      have ht : t = [Event.probeFunction er0.api_handler_name true]
                          ++ t1 ++ t2 ++ t3 :=
                        (congrArg (fun x => x.2.2) hr).symm
                      subst ht
                      constructor
                      · rw [updatedFunctionNames_append,
                            updatedFunctionNames_append,
                            updatedFunctionNames_append,
                            ht1.2.1, ht2.2.1, hsh.2.1]
                        simp [updatedFunctionNames]
                      · rw [createdFunctionNames_append,
                            createdFunctionNames_append,
                            createdFunctionNames_append,
                            ht1.1, ht2.1, hsh.1]
                        simp [createdFunctionNames]
      · refine ⟨fun h => Option.noConfusion h, ?_, ?_⟩
        · rintro er ⟨⟩ -
          rw [Bool.not_eq_true] at hb
          simp only [LambdaDeployer.deploy_api_handler, lambda_function_exists,
                     hb] at hr
          rcases heq : LambdaDeployer.first_time_lambda_create env w config
              (config.app_name ++ "-" ++ stage_name) stage_name with ⟨r1, w1, t1⟩
          rw [heq] at hr
          cases r1 with
          | error e => simp at hr
          | ok arn =>
              have hsh := first_time_lambda_create_ok_shape heq
              have ht : t = [Event.probeFunction er0.api_handler_name false] ++ t1 :=
                (congrArg (fun x => x.2.2) hr).symm
              subst ht
              refine ⟨?_, ?_, ?_⟩
              · rw [probedFunctionNames_append, hsh.2.2.1]
                simp [probedFunctionNames]
              · rw [createdFunctionNames_append, hsh.1]
                simp [createdFunctionNames]
              · rw [updatedFunctionNames_append, hsh.2.1]
                simp [updatedFunctionNames]
        · rintro er ⟨⟩ htrue
          rw [htrue] at hb
          cases hb rfl
  
/-- The prior record of the C3 stale-record witness: a recorded name that
is absent remotely. -/
def erC3 : DeployedResources :=
  { api_handler_name := "old-handler", api_handler_arn := "arn:old",
    lambda_functions := [], rest_api_id := "rid" }

/-- C3 witness: the no-record case creates app-dev without probing, the
stale-record case probes old-handler and still creates app-dev, and the
live-record case updates app-dev and creates nothing. -/
theorem deploy_api_handler_create_vs_update_witness :
    (probedFunctionNames (LambdaDeployer.deploy_api_handler baseEnv w0
        baseConfig none "dev").2.2 = [] ∧
     createdFunctionNames (LambdaDeployer.deploy_api_handler baseEnv w0
        baseConfig none "dev").2.2 = [baseConfig.app_name ++ "-" ++ "dev"] ∧
     updatedFunctionNames (LambdaDeployer.deploy_api_handler baseEnv w0
        baseConfig none "dev").2.2 = []) ∧
    (probedFunctionNames (LambdaDeployer.deploy_api_handler baseEnv w0
        baseConfig (some erC3) "dev").2.2 = [erC3.api_handler_name] ∧
     createdFunctionNames (LambdaDeployer.deploy_api_handler baseEnv w0
        baseConfig (some erC3) "dev").2.2 = [baseConfig.app_name ++ "-" ++ "dev"] ∧
     updatedFunctionNames (LambdaDeployer.deploy_api_handler baseEnv w0
        baseConfig (some erC3) "dev").2.2 = []) ∧
    (updatedFunctionNames (LambdaDeployer.deploy_api_handler baseEnv wC6
        baseConfig (some erC6) "dev").2.2 = [erC6.api_handler_name] ∧
     createdFunctionNames (LambdaDeployer.deploy_api_handler baseEnv wC6
        baseConfig (some erC6) "dev").2.2 = []) :=
  ⟨(deploy_api_handler_create_vs_update baseEnv w0 baseConfig none "dev"
      rfl).1 rfl,
   (deploy_api_handler_create_vs_update baseEnv w0 baseConfig (some erC3) "dev"
      rfl).2.1 erC3 rfl (by decide),
   (deploy_api_handler_create_vs_update baseEnv wC6 baseConfig (some erC6) "dev"
      rfl).2.2 erC6 rfl (by decide)⟩

/-! ## Delete-path shape lemmas. -/

theorem delete_lambda_function_spec (w : World) (x : String) :
    (LambdaDeployer.delete_lambda_function w x).1 = .ok () ∧
    ((LambdaDeployer.delete_lambda_function w x).2.1).roles = w.roles ∧
    (LambdaDeployer.delete_lambda_function w x).2.2 = [.deleteFunction x] := by
  simp only [LambdaDeployer.delete_lambda_function, delete_function]
  by_cases hb : (w.functions.any fun p => p.1 == x || p.2.arn == x) = true
  · rw [if_pos hb]
    exact ⟨rfl, rfl, rfl⟩
  · rw [if_neg hb]
    exact ⟨rfl, rfl, rfl⟩

theorem deleteFunctionsList_spec (w : World) (l : List String) :
    (LambdaDeployer.deleteFunctionsList w l).1 = .ok () ∧
    ((LambdaDeployer.deleteFunctionsList w l).2.1).roles = w.roles ∧
    deletedArns (LambdaDeployer.deleteFunctionsList w l).2.2 = l ∧
    deletedRoleNames (LambdaDeployer.deleteFunctionsList w l).2.2 = [] ∧
    confirmEvents (LambdaDeployer.deleteFunctionsList w l).2.2 = [] := by
  induction l generalizing w with
  | nil => exact ⟨rfl, rfl, rfl, rfl, rfl⟩
  | cons a rest ih =>
      simp only [LambdaDeployer.deleteFunctionsList]
      rcases heq : LambdaDeployer.delete_lambda_function w a with ⟨r1, w1, t1⟩
      have hs := delete_lambda_function_spec w a
      rw [heq] at hs
      have hr1 : r1 = .ok () := hs.1
      have hroles1 : w1.roles = w.roles := hs.2.1
      have ht1 : t1 = [.deleteFunction a] := hs.2.2
      subst hr1
      simp only []
      rcases heq2 : LambdaDeployer.deleteFunctionsList w1 rest with ⟨r2, w2, t2⟩
      have ihs := ih w1
      rw [heq2] at ihs
      subst ht1
      refine ⟨ihs.1, ?_, ?_, ?_, ?_⟩
      · exact (ihs.2.1).trans hroles1
      · rw [deletedArns_append, ihs.2.2.1]
        simp [deletedArns]
      · rw [deletedRoleNames_append, ihs.2.2.2.1]
        simp [deletedRoleNames]
      · rw [confirmEvents_append, ihs.2.2.2.2]
        simp [confirmEvents]

theorem delete_auth_handlers_spec (w : World) (er : DeployedResources) :
    (LambdaDeployer.delete_auth_handlers w er).1 = .ok () ∧
    ((LambdaDeployer.delete_auth_handlers w er).2.1).roles = w.roles ∧
    deletedArns (LambdaDeployer.delete_auth_handlers w er).2.2 =
      er.lambda_functions.map (fun p => p.2) ∧
    deletedRoleNames (LambdaDeployer.delete_auth_handlers w er).2.2 = [] ∧
    confirmEvents (LambdaDeployer.delete_auth_handlers w er).2.2 = [] := by
  simp only [LambdaDeployer.delete_auth_handlers]
  split
  · next hempty =>
      rw [List.isEmpty_iff.mp hempty]
      exact ⟨rfl, rfl, rfl, rfl, rfl⟩
  · exact deleteFunctionsList_spec w (er.lambda_functions.map (fun p => p.2))

theorem get_lambda_role_arn_eq (w : World) (n : String) :
    LambdaDeployer.get_lambda_role_arn w n =
      (w.roles.lookup n, w, [.probeRole n]) := by
  simp only [LambdaDeployer.get_lambda_role_arn, get_role_arn_for_name]
  cases w.roles.lookup n <;> rfl

theorem confirm_no_abort_eq (env : Env) (w : World) (text : String) (d : Bool) :
    confirm env w text d false =
      (.ok (env.answer text d false), w, [.confirmPrompt d false]) := rfl

/-! ## C2 -/

/-- C2: in the top-level delete of a stage with a prior record, the role
named after the recorded api handler governs identity deletion: when no
such role exists (an externally provided identity was used, so chalice
never created one) no role deletion and no prompt happen at all; when it
exists, exactly one confirmation with default decline is issued, the role
name is taken from the ARN (the segment after the slash), and the role is
deleted exactly when the prompter answers yes. -/
theorem deployer_delete_role_gate (env : Env) (w : World) (config : Config)
    (stage : String) (er : DeployedResources) {res : Except DeployErr Unit}
    {w2 : World} {t : List Event}
    (hres : config.deployed_resources stage = some er)
    (hdel : Deployer.delete env w config stage = (res, w2, t)) :
    (w.roles.lookup er.api_handler_name = none →
       deletedRoleNames t = [] ∧ confirmEvents t = []) ∧
    (∀ arn, w.roles.lookup er.api_handler_name = some arn →
       confirmEvents t = [(false, false)] ∧
       deletedRoleNames t =
         (if env.answer ("Delete the role " ++ LambdaDeployer.roleNameFromArn arn
             ++ "?") false false
          then [LambdaDeployer.roleNameFromArn arn] else [])) := by
  simp only [Deployer.delete, hres, APIGatewayDeployer.delete] at hdel
  simp only [LambdaDeployer.delete, LambdaDeployer.delete_api_handler] at hdel
  rcases heq1 : LambdaDeployer.delete_lambda_function w er.api_handler_name
    with ⟨r1, w1, t1⟩
  rw [heq1] at hdel
  have hs1 := delete_lambda_function_spec w er.api_handler_name
  rw [heq1] at hs1
  have hr1 : r1 = .ok () := hs1.1
  have hroles1 : w1.roles = w.roles := hs1.2.1
  have ht1 : t1 = [.deleteFunction er.api_handler_name] := hs1.2.2
  subst hr1
  simp only [] at hdel
  rcases heq2 : LambdaDeployer.delete_auth_handlers w1 er with ⟨r2, wB, t2⟩
  rw [heq2] at hdel
  have hs2 := delete_auth_handlers_spec w1 er
  rw [heq2] at hs2
  have hr2 : r2 = .ok () := hs2.1
  have hrolesB : wB.roles = w1.roles := hs2.2.1
  subst hr2
  simp only [] at hdel
  rw [get_lambda_role_arn_eq, hrolesB, hroles1] at hdel
  cases hl : w.roles.lookup er.api_handler_name with
  | none =>
      rw [hl] at hdel
      simp only [] at hdel
      have ht : t = [Event.deleteRestApi er.rest_api_id] ++
          (t1 ++ t2 ++ [Event.probeRole er.api_handler_name]) :=
        (congrArg (fun x => x.2.2) hdel).symm
      subst ht
      subst ht1
      constructor
      · intro _
        constructor
        · simp only [deletedRoleNames_append, hs2.2.2.2.1]
          simp [deletedRoleNames]
        · simp only [confirmEvents_append, hs2.2.2.2.2]
          simp [confirmEvents]
      · intro arn harn
        exact absurd harn (by simp)
  | some arn0 =>
      rw [hl] at hdel
      simp only [] at hdel
      rw [confirm_no_abort_eq] at hdel
      cases hans : env.answer
          ("Delete the role " ++ LambdaDeployer.roleNameFromArn arn0 ++ "?")
          false false with
      | true =>
          rw [hans] at hdel
          simp only [delete_role] at hdel
          have ht : t = [Event.deleteRestApi er.rest_api_id] ++
              (t1 ++ t2 ++ [Event.probeRole er.api_handler_name] ++
               [Event.confirmPrompt false false] ++
               [Event.deleteRole (LambdaDeployer.roleNameFromArn arn0)]) :=
            (congrArg (fun x => x.2.2) hdel).symm
          subst ht
          subst ht1
          constructor
          · intro hnone
            exact Option.noConfusion hnone
          · rintro arn harn
            injection harn with harn2
            subst harn2
            constructor
            · simp only [confirmEvents_append, hs2.2.2.2.2]
              simp [confirmEvents]
            · rw [if_pos hans]
              simp only [deletedRoleNames_append, hs2.2.2.2.1]
              simp [deletedRoleNames]
      | false =>
          rw [hans] at hdel
          simp only [] at hdel
          have ht : t = [Event.deleteRestApi er.rest_api_id] ++
              (t1 ++ t2 ++ [Event.probeRole er.api_handler_name] ++
               [Event.confirmPrompt false false]) :=
            (congrArg (fun x => x.2.2) hdel).symm
          subst ht
          subst ht1
          constructor
          · intro hnone
            exact Option.noConfusion hnone
          · rintro arn harn
            injection harn with harn2
            subst harn2
            constructor
            · simp only [confirmEvents_append, hs2.2.2.2.2]
              simp [confirmEvents]
            · rw [if_neg (by rw [hans]; exact Bool.false_ne_true)]
              simp only [deletedRoleNames_append, hs2.2.2.2.1]
              simp [deletedRoleNames]

/-- A prior record with one authorizer, used by the C2 witness. -/
def erC2 : DeployedResources :=
  { api_handler_name := "app-dev", api_handler_arn := "arnH",
    lambda_functions := [("app-dev-auth1", "arnA")], rest_api_id := "rid" }

/-- A config whose stage has the C2 record. -/
def cfgC2 : Config := { baseConfig with deployed_resources := fun _ => some erC2 }

/-- A world in which the managed role for the handler exists. -/
def wC2 : World :=
  ⟨[("app-dev", ⟨"arnH", "python2.7"⟩)],
   [("app-dev", "arn:aws:iam::12345:role/app-dev")], [], 0⟩

/-- C2 witness: with no role under the handler name nothing is prompted or
deleted; with the role present a single default-decline prompt is issued
and, the NoPrompt answer being the default decline, the role is kept. -/
theorem deployer_delete_role_gate_witness :
    (deletedRoleNames (Deployer.delete baseEnv w0 cfgC2 "dev").2.2 = [] ∧
     confirmEvents (Deployer.delete baseEnv w0 cfgC2 "dev").2.2 = []) ∧
    (confirmEvents (Deployer.delete baseEnv wC2 cfgC2 "dev").2.2 =
       [(false, false)] ∧
     deletedRoleNames (Deployer.delete baseEnv wC2 cfgC2 "dev").2.2 =
       (if baseEnv.answer ("Delete the role " ++
           LambdaDeployer.roleNameFromArn "arn:aws:iam::12345:role/app-dev"
           ++ "?") false false
        then [LambdaDeployer.roleNameFromArn "arn:aws:iam::12345:role/app-dev"]
        else [])) :=
  ⟨(deployer_delete_role_gate baseEnv w0 cfgC2 "dev" erC2 rfl rfl).1 rfl,
   (deployer_delete_role_gate baseEnv wC2 cfgC2 "dev" erC2 rfl rfl).2
     "arn:aws:iam::12345:role/app-dev" rfl⟩

/-! ## Garbage-collection shape lemmas. -/

theorem deploy_api_handler_ok_noDeletes {env : Env} {w : World} {config : Config}
    {existing : Option DeployedResources} {stage_name : String}
    {r : String × String} {w2 : World} {t : List Event}
    (hr : LambdaDeployer.deploy_api_handler env w config existing stage_name
            = (.ok r, w2, t)) : deletedArns t = [] := by
  cases existing with
  | none =>
      simp only [LambdaDeployer.deploy_api_handler] at hr
      rcases heq : LambdaDeployer.first_time_lambda_create env w config
          (config.app_name ++ "-" ++ stage_name) stage_name with ⟨r1, w1, t1⟩
      rw [heq] at hr
      cases r1 with
      | error e => simp at hr
      | ok arn =>
          have hsh := first_time_lambda_create_ok_shape heq
          have ht : t = t1 := (congrArg (fun x => x.2.2) hr).symm
          rw [ht]
          exact hsh.2.2.2
  | some er0 =>
      by_cases hb : (w.functions.lookup er0.api_handler_name).isSome
      · simp only [LambdaDeployer.deploy_api_handler, lambda_function_exists,
                   hb] at hr
        rcases heq1 : LambdaDeployer.confirm_any_runtime_changes env w config
            er0.api_handler_name with ⟨r1, w1, t1⟩
        rw [heq1] at hr
        cases r1 with
        | error e => simp at hr
        | ok u =>
            have ht1 : noFnEvents t1 := by
              have := confirm_any_runtime_changes_noFn env w config
                er0.api_handler_name
              rw [heq1] at this
              exact this
            simp only [] at hr
            rcases heq2 : LambdaDeployer.get_or_create_lambda_role_arn env w1
                config er0.api_handler_name with ⟨r2, wB, t2⟩
            rw [heq2] at hr
            cases r2 with
            | error e => simp at hr
            | ok u2 =>
                have ht2 : noFnEvents t2 := by
                  have := get_or_create_lambda_role_arn_noFn env w1 config
                    er0.api_handler_name
                  rw [heq2] at this
                  exact this
                simp only [] at hr
                rcases heq3 : LambdaDeployer.update_lambda_function env wB
                    config er0.api_handler_name stage_name with ⟨r3, wC, t3⟩
                rw [heq3] at hr
                cases r3 with
                | error e => simp at hr
                | ok u3 =>
                    have hsh := update_lambda_function_ok_shape heq3
                    have ht : t = [Event.probeFunction er0.api_handler_name true]
                        ++ t1 ++ t2 ++ t3 :=
                      (congrArg (fun x => x.2.2) hr).symm
                    rw [ht, deletedArns_append, deletedArns_append,
                        deletedArns_append, ht1.2.2.2, ht2.2.2.2, hsh.2.2.2]
                    simp [deletedArns]
      · rw [Bool.not_eq_true] at hb
        simp only [LambdaDeployer.deploy_api_handler, lambda_function_exists,
                   hb] at hr
        rcases heq : LambdaDeployer.first_time_lambda_create env w config
            (config.app_name ++ "-" ++ stage_name) stage_name with ⟨r1, w1, t1⟩
        rw [heq] at hr
        cases r1 with
        | error e => simp at hr
        | ok arn =>
            have hsh := first_time_lambda_create_ok_shape heq
            have ht : t = [Event.probeFunction er0.api_handler_name false] ++ t1 :=
              (congrArg (fun x => x.2.2) hr).symm
            rw [ht, deletedArns_append, hsh.2.2.2]
            simp [deletedArns]

theorem deploy_auth_handler_ok_noDeletes {env : Env} {w : World} {config : Config}
    {auth_config : BuiltinAuthConfig} {stage_name api_handler_name : String}
    {acc : List (String × String)} {r : List (String × String)} {w2 : World}
    {t : List Event}
    (hr : LambdaDeployer.deploy_auth_handler env w config auth_config stage_name
            api_handler_name acc = (.ok r, w2, t)) : deletedArns t = [] := by
  simp only [LambdaDeployer.deploy_auth_handler] at hr
  rcases heq1 : LambdaDeployer.get_or_create_lambda_role_arn env w config
      api_handler_name with ⟨r1, w1, t1⟩
  rw [heq1] at hr
  cases r1 with
  | error e => simp at hr
  | ok u =>
      have ht1 : noFnEvents t1 := by
        have := get_or_create_lambda_role_arn_noFn env w config api_handler_name
        rw [heq1] at this
        exact this
      simp only [] at hr
      by_cases hb : (w1.functions.lookup
          (api_handler_name ++ "-" ++ auth_config.name)).isSome
      · simp only [lambda_function_exists, hb] at hr
        rcases heq2 : LambdaDeployer.update_lambda_function env w1 config
            (api_handler_name ++ "-" ++ auth_config.name) stage_name
          with ⟨r2, wB, t2⟩
        rw [heq2] at hr
        cases r2 with
        | error e => simp at hr
        | ok arn =>
            have hsh := update_lambda_function_ok_shape heq2
            have ht : t = t1 ++
                [Event.probeFunction (api_handler_name ++ "-" ++ auth_config.name)
                  true] ++ t2 :=
              (congrArg (fun x => x.2.2) hr).symm
            rw [ht, deletedArns_append, deletedArns_append, ht1.2.2.2, hsh.2.2.2]
            simp [deletedArns]
      · rw [Bool.not_eq_true] at hb
        simp only [lambda_function_exists, hb] at hr
        rcases heq2 : create_function env w1
            (api_handler_name ++ "-" ++ auth_config.name)
            config.lambda_python_version with ⟨r2, wB, t2⟩
        rw [heq2] at hr
        cases r2 with
        | error e => simp at hr
        | ok arn =>
            have ht2 : t2 = [Event.createFunction
                (api_handler_name ++ "-" ++ auth_config.name)] := by
              have := create_function_trace env w1
                (api_handler_name ++ "-" ++ auth_config.name)
                config.lambda_python_version
              rw [heq2] at this
              exact this
            have ht : t = t1 ++
                [Event.probeFunction (api_handler_name ++ "-" ++ auth_config.name)
                  false] ++ t2 :=
              (congrArg (fun x => x.2.2) hr).symm
            rw [ht, ht2, deletedArns_append, deletedArns_append, ht1.2.2.2]
            simp [deletedArns]

theorem deployAuthList_ok_noDeletes {env : Env} {config : Config}
    {hs : List BuiltinAuthConfig} {stage_name api_handler_name : String} :
    ∀ {w : World} {acc : List (String × String)} {r : List (String × String)}
      {w2 : World} {t : List Event},
    LambdaDeployer.deployAuthList env w config hs stage_name api_handler_name acc
        = (.ok r, w2, t) → deletedArns t = [] := by
  induction hs with
  | nil =>
      intro w acc r w2 t hr
      have ht : t = [] := (congrArg (fun x => x.2.2) hr).symm
      rw [ht]
      rfl
  | cons h rest ih =>
      intro w acc r w2 t hr
      simp only [LambdaDeployer.deployAuthList] at hr
      rcases heq1 : LambdaDeployer.deploy_auth_handler env w
          (env.scopeConfig config h.name) h stage_name api_handler_name acc
        with ⟨r1, w1, t1⟩
      rw [heq1] at hr
      cases r1 with
      | error e => simp at hr
      | ok acc2 =>
          simp only [] at hr
          rcases heq2 : LambdaDeployer.deployAuthList env w1 config rest
              stage_name api_handler_name acc2 with ⟨r2, wB, t2⟩
          rw [heq2] at hr
          have hr2 : r2 = .ok r := congrArg (fun x => x.1) hr
          rw [hr2] at heq2
          have ht : t = t1 ++ t2 := (congrArg (fun x => x.2.2) hr).symm
          rw [ht, deletedArns_append, deploy_auth_handler_ok_noDeletes heq1,
              ih heq2]
          rfl

theorem deploy_auth_handlers_ok_noDeletes {env : Env} {w : World}
    {config : Config} {existing : Option DeployedResources}
    {stage_name api_handler_name : String} {r : List (String × String)}
    {w2 : World} {t : List Event}
    (hr : LambdaDeployer.deploy_auth_handlers env w config existing stage_name
            api_handler_name = (.ok r, w2, t)) : deletedArns t = [] := by
  simp only [LambdaDeployer.deploy_auth_handlers] at hr
  cases hl : config.chalice_app.builtin_auth_handlers with
  | nil =>
      rw [hl] at hr
      have ht : t = [] := (congrArg (fun x => x.2.2) hr).symm
      rw [ht]
      rfl
  | cons h rest =>
      rw [hl] at hr
      exact deployAuthList_ok_noDeletes hr

theorem cleanup_unreferenced_functions_spec (w : World)
    (er : DeployedResources) (lfs : List (String × String)) :
    (LambdaDeployer.cleanup_unreferenced_functions w er lfs).1 = .ok () ∧
    deletedArns (LambdaDeployer.cleanup_unreferenced_functions w er lfs).2.2 =
      ((er.lambda_functions.map (fun p => p.2)).filter
        (fun a => !((lfs.map (fun p => p.2)).contains a))).dedup := by
  simp only [LambdaDeployer.cleanup_unreferenced_functions]
  exact ⟨(deleteFunctionsList_spec ..).1, (deleteFunctionsList_spec ..).2.2.1⟩

/-! ## C4 -/

/-- C4: after primary and authorizer reconciliation, garbage collection
deletes exactly the ARNs recorded in the previous lambda-function mapping
that are absent from the newly recorded mapping, and no others; with no
previous record no deletion is attempted anywhere in the deploy. -/
theorem lambda_deploy_gc_exact (env : Env) (w : World) (config : Config)
    (existing : Option DeployedResources) (stage_name : String)
    {dv : LambdaDeployer.DeployedValues} {w2 : World} {t : List Event}
    (hr : LambdaDeployer.deploy env w config existing stage_name
            = (.ok dv, w2, t)) :
    (existing = none → deletedArns t = []) ∧
    (∀ er, existing = some er → ∀ a,
       (a ∈ deletedArns t ↔
          a ∈ er.lambda_functions.map (fun p => p.2) ∧
          a ∉ dv.lambda_functions.map (fun p => p.2))) := by
  simp only [LambdaDeployer.deploy] at hr
  rcases heq1 : LambdaDeployer.deploy_api_handler env w config existing
      stage_name with ⟨r1, w1, t1⟩
  rw [heq1] at hr
  cases r1 with
  | error e => simp at hr
  | ok p =>
      obtain ⟨hname, harn⟩ := p
      have hd1 : deletedArns t1 = [] := deploy_api_handler_ok_noDeletes heq1
      simp only [] at hr
      rcases heq2 : LambdaDeployer.deploy_auth_handlers env w1 config existing
          stage_name hname with ⟨r2, wB, t2⟩
      rw [heq2] at hr
      cases r2 with
      | error e => simp at hr
      | ok lfs =>
          have hd2 : deletedArns t2 = [] := deploy_auth_handlers_ok_noDeletes heq2
          simp only [] at hr
          cases existing with
          | none =>
              refine ⟨?_, fun er h => Option.noConfusion h⟩
              intro _
              have ht : t = t1 ++ t2 := (congrArg (fun x => x.2.2) hr).symm
              rw [ht, deletedArns_append, hd1, hd2]
              rfl
          | some er0 =>
              refine ⟨fun h => Option.noConfusion h, ?_⟩
              rintro er herr a
              injection herr with herr2
              subst herr2
              simp only [] at hr
              rcases heq3 : LambdaDeployer.cleanup_unreferenced_functions wB
                  er0 lfs with ⟨r3, wC, t3⟩
              rw [heq3] at hr
              have hspec := cleanup_unreferenced_functions_spec wB er0 lfs
              rw [heq3] at hspec
              have hr3 : r3 = .ok () := hspec.1
              subst hr3
              simp only [] at hr
              have ht : t = t1 ++ t2 ++ t3 := (congrArg (fun x => x.2.2) hr).symm
              have hdv : LambdaDeployer.DeployedValues.mk hname harn lfs = dv := by
                have := congrArg (fun x => x.1) hr
                simpa using this
              subst hdv
              rw [ht, deletedArns_append, deletedArns_append, hd1, hd2,
                  hspec.2]
              simp [List.mem_dedup, List.mem_filter]

/-- The previous record of the C4 witness: two recorded authorizer ARNs,
of which only arnA survives the next deploy. -/
def erC4 : DeployedResources :=
  { api_handler_name := "app-dev", api_handler_arn := "arnH",
    lambda_functions := [("app-dev-auth1", "arnA"), ("app-dev-auth2", "arnB")],
    rest_api_id := "rid" }

/-- The config of the C4 witness: one declared authorizer auth1. -/
def cfgC4 : Config :=
  { baseConfig with
      chalice_app :=
        { routes := baseApp.routes,
          builtin_auth_handlers := [⟨"auth1", "app.auth1"⟩],
          api_binary_types := [] } }

/-- The starting world of the C4 witness: handler and auth1 exist remotely,
the managed role exists, and the recorded policy matches so no prompts
fire. -/
def wC4 : World :=
  ⟨[("app-dev", ⟨"arnH", "python2.7"⟩),
    ("app-dev-auth1", ⟨"arnA", "python2.7"⟩),
    ("app-dev-auth2", ⟨"arnB", "python2.7"⟩)],
   [("app-dev", "arn:aws:iam::12345:role/app-dev")],
   [("p/.chalice/policy.json", EMPTY_POLICY)], 0⟩

/-- C4 witness: with no prior record the deploy deletes nothing; with the
prior record above, the dropped authorizer ARN arnB is deleted and the
kept ARN arnA is not. -/
theorem lambda_deploy_gc_exact_witness :
    deletedArns (LambdaDeployer.deploy baseEnv w0 baseConfig none "dev").2.2
      = [] ∧
    ("arnB" ∈ deletedArns
        (LambdaDeployer.deploy baseEnv wC4 cfgC4 (some erC4) "dev").2.2 ↔
      "arnB" ∈ erC4.lambda_functions.map (fun p => p.2) ∧
      "arnB" ∉ ((LambdaDeployer.deploy baseEnv wC4 cfgC4 (some erC4)
          "dev").1.toOption.getD ⟨"", "", []⟩).lambda_functions.map
          (fun p => p.2)) ∧
    ("arnA" ∈ deletedArns
        (LambdaDeployer.deploy baseEnv wC4 cfgC4 (some erC4) "dev").2.2 ↔
      "arnA" ∈ erC4.lambda_functions.map (fun p => p.2) ∧
      "arnA" ∉ ((LambdaDeployer.deploy baseEnv wC4 cfgC4 (some erC4)
          "dev").1.toOption.getD ⟨"", "", []⟩).lambda_functions.map
          (fun p => p.2)) :=
  ⟨(lambda_deploy_gc_exact baseEnv w0 baseConfig none "dev" rfl).1 rfl,
   (lambda_deploy_gc_exact baseEnv wC4 cfgC4 (some erC4) "dev" rfl).2 erC4 rfl
     "arnB",
   (lambda_deploy_gc_exact baseEnv wC4 cfgC4 (some erC4) "dev" rfl).2 erC4 rfl
     "arnA"⟩

/-! ## Gateway shape lemmas. -/

/-- The authorizer grant events: one per ARN, with uuids drawn at
successive counter values starting from k. -/
def grantAuthEvents (env : Env) (rest_api_id : String) : Nat → List String → List Event
  | _, [] => []
  | k, a :: rest =>
      .addAuthPermission rest_api_id a (env.uuids k) ::
        grantAuthEvents env rest_api_id (k + 1) rest

theorem grantAuthList_eq (env : Env) (w : World) (rest_api_id : String)
    (arns : List String) :
    APIGatewayDeployer.grantAuthList env w rest_api_id arns =
      ({ w with uuidCount := w.uuidCount + arns.length },
       grantAuthEvents env rest_api_id w.uuidCount arns) := by
  induction arns generalizing w with
  | nil => rfl
  | cons a rest ih =>
      simp only [APIGatewayDeployer.grantAuthList, APIGatewayDeployer.fresh_uuid]
      rw [ih]
      show (({ w with uuidCount := w.uuidCount + 1 + rest.length } : World),
            Event.addAuthPermission rest_api_id a (env.uuids w.uuidCount) ::
              grantAuthEvents env rest_api_id (w.uuidCount + 1) rest) = _
      rw [show w.uuidCount + 1 + rest.length = w.uuidCount + (a :: rest).length
            from by simp only [List.length_cons]; omega]
      rfl

theorem deploy_api_to_stage_eq (env : Env) (w : World)
    (rest_api_id api_gateway_stage : String)
    (dv : LambdaDeployer.DeployedValues) :
    APIGatewayDeployer.deploy_api_to_stage env w rest_api_id api_gateway_stage dv =
      (.ok (),
       { w with uuidCount := w.uuidCount + 1 + dv.lambda_functions.length },
       [.deployRestApi rest_api_id api_gateway_stage,
        .addPermission ((splitString ':' dv.api_handler_arn).getLastD "")
          ((splitString ':' dv.api_handler_arn).getD 4 "") rest_api_id
          (env.uuids w.uuidCount)] ++
       grantAuthEvents env rest_api_id (w.uuidCount + 1)
         (dv.lambda_functions.map (fun p => p.2))) := by
  simp only [APIGatewayDeployer.deploy_api_to_stage, APIGatewayDeployer.fresh_uuid]
  by_cases hb : dv.lambda_functions.isEmpty
  · rw [if_pos hb]
    rw [List.isEmpty_iff.mp hb]
    try rfl
  · rw [if_neg hb]
    rw [grantAuthList_eq, List.length_map]
    try rfl

theorem first_time_deploy_eq (env : Env) (w : World) (config : Config)
    (dv : LambdaDeployer.DeployedValues) :
    APIGatewayDeployer.first_time_deploy env w config dv =
      (.ok (env.importedRestApiId, env.regionName,
            config.api_gateway_stage.getD DEFAULT_STAGE_NAME),
       { w with uuidCount := w.uuidCount + 1 + dv.lambda_functions.length },
       [.importRestApi env.importedRestApiId] ++
       ([.deployRestApi env.importedRestApiId
           (config.api_gateway_stage.getD DEFAULT_STAGE_NAME),
         .addPermission ((splitString ':' dv.api_handler_arn).getLastD "")
           ((splitString ':' dv.api_handler_arn).getD 4 "")
           env.importedRestApiId (env.uuids w.uuidCount)] ++
        grantAuthEvents env env.importedRestApiId (w.uuidCount + 1)
          (dv.lambda_functions.map (fun p => p.2)))) := by
  simp only [APIGatewayDeployer.first_time_deploy]
  rw [deploy_api_to_stage_eq]

theorem create_resources_for_api_eq (env : Env) (w : World) (config : Config)
    (rest_api_id : String) (dv : LambdaDeployer.DeployedValues) :
    APIGatewayDeployer.create_resources_for_api env w config rest_api_id dv =
      (.ok (rest_api_id, env.regionName,
            config.api_gateway_stage.getD DEFAULT_STAGE_NAME),
       { w with uuidCount := w.uuidCount + 1 + dv.lambda_functions.length },
       [.updateRestApi rest_api_id] ++
       ([.deployRestApi rest_api_id
           (config.api_gateway_stage.getD DEFAULT_STAGE_NAME),
         .addPermission ((splitString ':' dv.api_handler_arn).getLastD "")
           ((splitString ':' dv.api_handler_arn).getD 4 "") rest_api_id
           (env.uuids w.uuidCount)] ++
        grantAuthEvents env rest_api_id (w.uuidCount + 1)
          (dv.lambda_functions.map (fun p => p.2)))) := by
  simp only [APIGatewayDeployer.create_resources_for_api]
  rw [deploy_api_to_stage_eq]

/-! ## C7 -/

/-- C7: gateway deployment, in both the existing-gateway and first-deploy
cases, publishes to the configured stage name or the fixed default when
unconfigured, then always grants the gateway invoke permission on the
primary function with a freshly drawn statement identifier, then grants
invoke permission for every authorizer in the record with further fresh
identifiers — and the trace contains nothing else: in particular no probe
for an existing equivalent grant. -/
theorem apigw_deploy_spec (env : Env) (w : World) (config : Config)
    (existing : Option DeployedResources)
    (dv : LambdaDeployer.DeployedValues) {rid region stage : String}
    {w2 : World} {t : List Event}
    (hr : APIGatewayDeployer.deploy env w config existing dv
            = (.ok (rid, region, stage), w2, t)) :
    stage = config.api_gateway_stage.getD DEFAULT_STAGE_NAME ∧
    region = env.regionName ∧
    w2 = { w with uuidCount := w.uuidCount + 1 + dv.lambda_functions.length } ∧
    ∃ pre : List Event,
      (t = pre ++
        ([.deployRestApi rid stage,
          .addPermission ((splitString ':' dv.api_handler_arn).getLastD "")
            ((splitString ':' dv.api_handler_arn).getD 4 "") rid
            (env.uuids w.uuidCount)] ++
         grantAuthEvents env rid (w.uuidCount + 1)
           (dv.lambda_functions.map (fun p => p.2)))) ∧
      ((existing = none →
          pre = [.importRestApi env.importedRestApiId] ∧
          rid = env.importedRestApiId) ∧
       (∀ er, existing = some er →
          (env.restApiExists er.rest_api_id = true →
             pre = [.probeRestApi er.rest_api_id true,
                    .updateRestApi er.rest_api_id] ∧ rid = er.rest_api_id) ∧
          (env.restApiExists er.rest_api_id = false →
             pre = [.probeRestApi er.rest_api_id false,
                    .importRestApi env.importedRestApiId] ∧
             rid = env.importedRestApiId))) := by
  cases existing with
  | none =>
      simp only [APIGatewayDeployer.deploy] at hr
      rw [first_time_deploy_eq] at hr
      simp only [Prod.mk.injEq, Except.ok.injEq] at hr
      obtain ⟨⟨hrid, hregion, hstage⟩, hw, ht⟩ := hr
      subst hrid
      subst hregion
      subst hstage
      subst hw
      subst ht
      refine ⟨rfl, rfl, rfl, [.importRestApi env.importedRestApiId], ?_, ?_, ?_⟩
      · simp
      · exact fun _ => ⟨rfl, rfl⟩
      · exact fun er h => Option.noConfusion h
  | some er0 =>
      cases hb : env.restApiExists er0.rest_api_id with
      | true =>
          simp only [APIGatewayDeployer.deploy, hb, if_true] at hr
          rw [create_resources_for_api_eq] at hr
          simp only [Prod.mk.injEq, Except.ok.injEq] at hr
          obtain ⟨⟨hrid, hregion, hstage⟩, hw, ht⟩ := hr
          subst hrid
          subst hregion
          subst hstage
          subst hw
          subst ht
          refine ⟨rfl, rfl, rfl,
            [.probeRestApi er0.rest_api_id true, .updateRestApi er0.rest_api_id],
            ?_, ?_, ?_⟩
          · simp
          · intro h
            exact Option.noConfusion h
          · rintro er herr
            injection herr with herr2
            subst herr2
            exact ⟨fun _ => ⟨rfl, rfl⟩, fun hfalse => absurd hb (by rw [hfalse]; exact Bool.false_ne_true)⟩
      | false =>
          simp only [APIGatewayDeployer.deploy, hb, Bool.false_eq_true,
                     if_false] at hr
          rw [first_time_deploy_eq] at hr
          simp only [Prod.mk.injEq, Except.ok.injEq] at hr
          obtain ⟨⟨hrid, hregion, hstage⟩, hw, ht⟩ := hr
          subst hrid
          subst hregion
          subst hstage
          subst hw
          subst ht
          refine ⟨rfl, rfl, rfl,
            [.probeRestApi er0.rest_api_id false,
             .importRestApi env.importedRestApiId], ?_, ?_, ?_⟩
          · simp
          · intro h
            exact Option.noConfusion h
          · rintro er herr
            injection herr with herr2
            subst herr2
            refine ⟨fun htrue => ?_, fun _ => ⟨rfl, rfl⟩⟩
            rw [htrue] at hb
            exact Bool.noConfusion hb

/-- The deployed values fed to the C7 witness: one authorizer. -/
def dvC7 : LambdaDeployer.DeployedValues :=
  { api_handler_name := "app-dev",
    api_handler_arn := "arn:aws:lambda:r:12345:function:app-dev",
    lambda_functions := [("app-dev-auth1", "arnA")] }

/-- C7 witness: a first-time gateway deploy with one authorizer publishes
to the default stage, grants the primary permission with the first fresh
uuid and the authorizer permission with the next one, and nothing else. -/
theorem apigw_deploy_spec_witness :
    "dev" = baseConfig.api_gateway_stage.getD DEFAULT_STAGE_NAME ∧
    "r" = baseEnv.regionName ∧
    (⟨[], [], [], 2⟩ : World) =
      { w0 with uuidCount := w0.uuidCount + 1 + dvC7.lambda_functions.length } ∧
    ∃ pre : List Event,
      ((Event.importRestApi "api123" ::
        ([.deployRestApi "api123" "dev",
          .addPermission "app-dev" "12345" "api123" (baseEnv.uuids 0),
          .addAuthPermission "api123" "arnA" (baseEnv.uuids 1)] : List Event)) =
        pre ++
        ([.deployRestApi "api123" "dev",
          .addPermission ((splitString ':' dvC7.api_handler_arn).getLastD "")
            ((splitString ':' dvC7.api_handler_arn).getD 4 "") "api123"
            (baseEnv.uuids w0.uuidCount)] ++
         grantAuthEvents baseEnv "api123" (w0.uuidCount + 1)
           (dvC7.lambda_functions.map (fun p => p.2)))) ∧
      ((none = (none : Option DeployedResources) →
          pre = [.importRestApi baseEnv.importedRestApiId] ∧
          "api123" = baseEnv.importedRestApiId) ∧
       (∀ er, (none : Option DeployedResources) = some er →
          (baseEnv.restApiExists er.rest_api_id = true →
             pre = [.probeRestApi er.rest_api_id true,
                    .updateRestApi er.rest_api_id] ∧
             "api123" = er.rest_api_id) ∧
          (baseEnv.restApiExists er.rest_api_id = false →
             pre = [.probeRestApi er.rest_api_id false,
                    .importRestApi baseEnv.importedRestApiId] ∧
             "api123" = baseEnv.importedRestApiId))) :=
  apigw_deploy_spec baseEnv w0 baseConfig none dvC7 rfl

/-! ## Validation error classification. -/

theorem validate_cors_for_route_validation {route_url : String}
    {ms : List (String × RouteEntry)} {e : DeployErr}
    (h : validate_cors_for_route route_url ms = .error e) :
    ∃ m, e = .validation m := by
  simp only [validate_cors_for_route] at h
  split at h
  · cases h
  · split at h
    · injection h with h2
      exact ⟨_, h2.symm⟩
    · split at h
      · injection h with h2
        exact ⟨_, h2.symm⟩
      · cases h

theorem validate_routes_validation {routes : List (String × List (String × RouteEntry))}
    {e : DeployErr} (h : validate_routes routes = .error e) :
    ∃ m, e = .validation m := by
  induction routes with
  | nil => cases h
  | cons p rest ih =>
      obtain ⟨route_name, methods⟩ := p
      simp only [validate_routes] at h
      split at h
      · injection h with h2
        exact ⟨_, h2.symm⟩
      · split at h
        · next e2 heq =>
            injection h with h2
            subst h2
            exact validate_cors_for_route_validation heq
        · exact ih h

theorem validate_entry_content_type_validation {r : RouteEntry} {bt : List String}
    {e : DeployErr} (h : validate_entry_content_type r bt = .error e) :
    ∃ m, e = .validation m := by
  simp only [validate_entry_content_type] at h
  split at h
  · injection h with h2
    exact ⟨_, h2.symm⟩
  · cases h

theorem validateEntriesContentTypes_validation
    {ms : List (String × RouteEntry)} {bt : List String} {e : DeployErr}
    (h : validateEntriesContentTypes ms bt = .error e) :
    ∃ m, e = .validation m := by
  induction ms with
  | nil => cases h
  | cons p rest ih =>
      obtain ⟨mname, entry⟩ := p
      simp only [validateEntriesContentTypes] at h
      split at h
      · next e2 heq =>
          injection h with h2
          subst h2
          exact validate_entry_content_type_validation heq
      · exact ih h

theorem validate_route_content_types_validation
    {routes : List (String × List (String × RouteEntry))} {bt : List String}
    {e : DeployErr} (h : validate_route_content_types routes bt = .error e) :
    ∃ m, e = .validation m := by
  induction routes with
  | nil => cases h
  | cons p rest ih =>
      obtain ⟨rname, methods⟩ := p
      simp only [validate_route_content_types] at h
      split at h
      · next e2 heq =>
          injection h with h2
          subst h2
          exact validateEntriesContentTypes_validation heq
      · exact ih h

theorem validate_manage_iam_role_validation {config : Config} {e : DeployErr}
    (h : validate_manage_iam_role config = .error e) :
    ∃ m, e = .validation m := by
  simp only [validate_manage_iam_role] at h
  split at h
  · split at h
    · injection h with h2
      exact ⟨_, h2.symm⟩
    · cases h
  · cases h

/-- validate_configuration raises only validation errors. -/
theorem validate_configuration_validation {config : Config} {e : DeployErr}
    (h : validate_configuration config = .error e) :
    ∃ m, e = .validation m := by
  simp only [validate_configuration] at h
  split at h
  · next e2 heq =>
      injection h with h2
      subst h2
      exact validate_routes_validation heq
  · split at h
    · next e2 heq =>
        injection h with h2
        subst h2
        exact validate_route_content_types_validation heq
    · exact validate_manage_iam_role_validation h

/-! ## C8 -/

/-- C8: a pre-flight validation error propagates out of Deployer.deploy
unchanged, before any call is made; an AWS-client error raised inside
_do_deploy is re-raised as the single unified deployment-error kind; and
Deployer.deploy never surfaces a raw AWS-client error. -/
theorem deployer_deploy_error_policy :
    (∀ (env : Env) (w : World) (config : Config) (stage : String) (e : DeployErr),
       validate_configuration config = .error e →
       Deployer.deploy env w config stage = (.error e, w, [])) ∧
    (∀ (env : Env) (w : World) (config : Config) (stage : String) (m : String)
       (w2 : World) (t : List Event),
       Deployer.do_deploy env w config stage = (.error (.awsClient m), w2, t) →
       Deployer.deploy env w config stage = (.error (.deployment m), w2, t)) ∧
    (∀ (env : Env) (w : World) (config : Config) (stage : String) (m : String)
       (w2 : World) (t : List Event),
       Deployer.deploy env w config stage ≠ (.error (.awsClient m), w2, t)) := by
  refine ⟨?_, ?_, ?_⟩
  · intro env w config stage e hv
    obtain ⟨m, rfl⟩ := validate_configuration_validation hv
    simp only [Deployer.deploy, Deployer.do_deploy, hv]
  · intro env w config stage m w2 t hdo
    simp only [Deployer.deploy, hdo]
  · intro env w config stage m w2 t
    simp only [Deployer.deploy]
    rcases hdo : Deployer.do_deploy env w config stage with ⟨r, wB, tB⟩
    cases r with
    | ok v => simp
    | error e =>
        cases e with
        | awsClient m2 => simp
        | validation m2 => simp
        | deployment m2 => simp
        | malformedPolicyFile m2 => simp
        | rdne m2 => simp
        | aborted => simp

/-- A config that fails route validation: a non-root route with a trailing
slash. -/
def cfgBadRoute : Config :=
  { baseConfig with
      chalice_app :=
        { routes := [("/items/", [("GET", ⟨"items", ["application/json"], none⟩)])],
          builtin_auth_handlers := [], api_binary_types := [] } }

/-- An environment whose function-creation upload fails, standing for a
LambdaClientError. -/
def envFault : Env := { baseEnv with createFault := fun _ => some "upload failed" }

/-- The world after the C8 fault run: the role was created and the policy
recorded before the create call failed. -/
def wC8 : World :=
  ⟨[], [("app-dev", "arn:aws:iam::12345:role/app-dev")],
   [("p/.chalice/policy.json", EMPTY_POLICY)], 0⟩

/-- The trace of the C8 fault run. -/
def tC8 : List Event :=
  [.probeRole "app-dev", .createRole "app-dev",
   .recordPolicyFile "p/.chalice/policy.json", .createFunction "app-dev"]

/-- C8 witness: the trailing-slash config surfaces its validation error
unchanged with an empty trace; the injected upload fault surfaces as the
unified deployment error with the same world and trace; and that deploy
does not surface the raw client error. -/
theorem deployer_deploy_error_policy_witness :
    Deployer.deploy baseEnv w0 cfgBadRoute "dev" =
      (.error (.validation "Route cannot end with a trailing slash: /items/"),
       w0, []) ∧
    Deployer.deploy envFault w0 baseConfig "dev" =
      (.error (.deployment "upload failed"), wC8, tC8) ∧
    Deployer.deploy envFault w0 baseConfig "dev" ≠
      (.error (.awsClient "upload failed"), wC8, tC8) :=
  ⟨deployer_deploy_error_policy.1 baseEnv w0 cfgBadRoute "dev"
     (.validation "Route cannot end with a trailing slash: /items/") rfl,
   deployer_deploy_error_policy.2.1 envFault w0 baseConfig "dev"
     "upload failed" wC8 tC8 rfl,
   deployer_deploy_error_policy.2.2 envFault w0 baseConfig "dev"
     "upload failed" wC8 tC8⟩

/-! ## C9 -/

/-- C9: with an externally managed identity (manage_iam_role false, an ARN
provided), identity resolution returns the configured ARN verbatim,
leaves the world untouched and issues no call at all: it never creates,
diffs or mutates any identity. -/
theorem get_or_create_role_unmanaged (env : Env) (w : World) (config : Config)
    (role_name : String) (h : config.manage_iam_role = false) :
    LambdaDeployer.get_or_create_lambda_role_arn env w config role_name =
      (.ok config.iam_role_arn, w, []) := by
  simp [LambdaDeployer.get_or_create_lambda_role_arn, h]

/-- A config with an externally provided role. -/
def cfgExternalRole : Config :=
  { baseConfig with manage_iam_role := false,
                    iam_role_arn := "arn:aws:iam::12345:role/external" }

/-- C9 witness. -/
theorem get_or_create_role_unmanaged_witness :
    LambdaDeployer.get_or_create_lambda_role_arn baseEnv w0 cfgExternalRole "app-dev" =
      (.ok "arn:aws:iam::12345:role/external", w0, []) :=
  get_or_create_role_unmanaged baseEnv w0 cfgExternalRole "app-dev" rfl

/-! ## C10 -/

/-- C10: the top-level delete on a stage with no DeployedResources record
performs zero remote calls, leaves the world untouched and returns without
error. -/
theorem deployer_delete_no_record (env : Env) (w : World) (config : Config)
    (stage : String) (h : config.deployed_resources stage = none) :
    Deployer.delete env w config stage = (.ok (), w, []) := by
  simp [Deployer.delete, h]

/-- C10 witness. -/
theorem deployer_delete_no_record_witness :
    Deployer.delete baseEnv w0 baseConfig "dev" = (.ok (), w0, []) :=
  deployer_delete_no_record baseEnv w0 baseConfig "dev" rfl

end Chalice
